import Mathlib

/-!
A shallow embedding of `libfs/fs.c`.

The FAT-style file system of `src/libfs/fs.c` is embedded function by function.
Bytes, 16-bit FAT entries and C integers are natural numbers or integers with
explicit wrap-around; arrays are lists; the global variables of `fs.c` and the
block device form one record `FS` that every operation receives and returns.

A result `none` stands for a run that has no defined result: an access outside
an array or a buffer, or a loop that does not stop within the supplied fuel.
Return codes (`-1`, `0`, byte counts) are integers inside `some`.
-/

namespace LibFS

/-! ## Constants -/

/-- Modelled from the spec: `BLOCK_SIZE` of the absent `disk.h`, the fixed block
size of 4096 bytes. -/
def BLOCK_SIZE : Nat := 4096

/-- Modelled from the spec: `FS_FILENAME_LEN` of the absent `fs.h`, 16 bytes of
file name including the terminating NUL. -/
def FS_FILENAME_LEN : Nat := 16

/-- Modelled from the spec: `FS_FILE_MAX_COUNT` of the absent `fs.h`, the 128
entries of the root directory. -/
def FS_FILE_MAX_COUNT : Nat := 128

/-- Modelled from the spec: `FS_OPEN_MAX_COUNT` of the absent `fs.h`, the 32
slots of the descriptor table. -/
def FS_OPEN_MAX_COUNT : Nat := 32

/-- The end-of-chain mark, `#define FAT_EOC 0xFFFF`. -/
def FAT_EOC : Nat := 0xFFFF

/-- Entries per FAT block, `#define FAT_SIZE 2048`. -/
def FAT_SIZE : Nat := 2048

/-- The signature `fs_mount` compares the superblock with. -/
def SIGNATURE : Nat := 6000536558536704837

/-! ## C integers -/

/-- Conversion of an unsigned value to `int` (32 bits, two's complement). -/
def toInt32 (n : Nat) : Int :=
  if n % 2 ^ 32 < 2 ^ 31 then ((n % 2 ^ 32 : Nat) : Int) else ((n % 2 ^ 32 : Nat) : Int) - 2 ^ 32

/-- Conversion of an `int` to `size_t` (64 bits). -/
def toSizeT (i : Int) : Nat := (i % 2 ^ 64).toNat

/-- Conversion of an `int` to `uint32_t`. -/
def toUInt32 (i : Int) : Nat := (i % 2 ^ 32).toNat

/-- Subtraction of `size_t` values, wrapping modulo 2^64. -/
def subSizeT (a b : Nat) : Nat := (a % 2 ^ 64 + (2 ^ 64 - b % 2 ^ 64)) % 2 ^ 64

/-- Addition of `size_t` values, wrapping modulo 2^64. -/
def addSizeT (a b : Nat) : Nat := (a + b) % 2 ^ 64

/-- The helper `int max(int a, int b)` of `fs.c`. -/
def max (a b : Int) : Int := if a > b then a else b

/-- The helper `int min(int a, int b)` of `fs.c`. -/
def min (a b : Int) : Int := if a < b then a else b

/-! ## Bytes and memory -/

/-- Little-endian value of a byte sequence. -/
def leValue : List Nat → Nat
  | [] => 0
  | b :: bs => b + 256 * leValue bs

/-- Little-endian bytes of a value, `k` of them. -/
def leBytes : Nat → Nat → List Nat
  | 0, _ => []
  | k + 1, n => n % 256 :: leBytes k (n / 256)

/-- A byte buffer read as an array of `uint16_t` (little-endian host). -/
def bytesToU16 : List Nat → List Nat
  | a :: b :: rest => (a + 256 * b) :: bytesToU16 rest
  | _ => []

/-- An array of `uint16_t` as the bytes it occupies (little-endian host). -/
def u16ToBytes : List Nat → List Nat
  | [] => []
  | x :: rest => x % 256 :: x / 256 % 256 :: u16ToBytes rest

/-- The C call `memcpy(dst + doff, src + soff, n)` on two byte arrays: `none` when
the copy leaves either array. -/
def memcpy (dst : List Nat) (doff : Nat) (src : List Nat) (soff : Nat) (n : Nat) :
    Option (List Nat) :=
  if doff + n ≤ dst.length ∧ soff + n ≤ src.length then
    some (dst.take doff ++ ((src.drop soff).take n ++ dst.drop (doff + n)))
  else none

/-! ## C strings

A C string argument is the list of its bytes; the end of the list stands for the
terminating NUL, and so does a NUL inside the list. -/

/-- The library function `strlen`. -/
def strlen : List Nat → Nat
  | [] => 0
  | c :: cs => if c = 0 then 0 else strlen cs + 1

/-- The test `strcmp(a, b) == 0`. -/
def strcmp0 : List Nat → List Nat → Bool
  | [], [] => true
  | [], b :: _ => b == 0
  | a :: _, [] => a == 0
  | a :: as, b :: bs => if a = 0 ∨ b = 0 then a == b else (a == b && strcmp0 as bs)

/-- The bytes of a C string up to its terminator. -/
def cstr : List Nat → List Nat
  | [] => []
  | c :: cs => if c = 0 then [] else c :: cstr cs

/-- The call `strcpy(dst, src)` into a byte array: the string and its NUL replace
the first bytes of `dst`, the rest of `dst` stays. -/
def strcpy (dst src : List Nat) : List Nat :=
  cstr src ++ (0 :: dst.drop (strlen src + 1))

/-! ## Data model -/

/-- The packed `struct superblock`. -/
structure superblock where
  signature : Nat
  total_block : Nat
  root_dir_block_index : Nat
  data_block_start_index : Nat
  number_of_data_block : Nat
  number_of_fat_block : Nat
  padding : List Nat
deriving DecidableEq, Repr

/-- The packed `struct root_directory`, one entry of the root directory. -/
structure root_directory where
  filename : List Nat
  size_of_file : Nat
  index_first_data_block : Nat
  padding : List Nat
deriving DecidableEq, Repr

/-- The `struct file_descriptor`. -/
structure file_descriptor where
  inUse : Bool
  file_rdir_index : Int
  offset : Nat
deriving DecidableEq, Repr

/-- Modelled from the spec: the block device of the absent `disk.c`, a backing
file of 4096-byte blocks that is either open or closed. -/
structure Disk where
  name : List Nat
  opened : Bool
  blocks : List (List Nat)
deriving DecidableEq, Repr

/-- The global variables of `fs.c` together with the block device. `FAT` is
`none` for the NULL pointer. `Root_Directory` has `FS_FILE_MAX_COUNT` entries and
`Open_FD_Table` has `FS_OPEN_MAX_COUNT` slots. -/
structure FS where
  disk : Disk
  Superblock : superblock
  Root_Directory : List root_directory
  FAT : Option (List Nat)
  Open_FD_Table : List file_descriptor
deriving DecidableEq, Repr

/-! ## The block device -/

/-- Modelled from the spec: `block_disk_open` of the absent `disk.c`. It fails
when a disk is already open or no backing file has the given name. -/
def block_disk_open (d : Disk) (diskname : List Nat) : Option Disk :=
  if d.opened = false ∧ cstr diskname = cstr d.name then some { d with opened := true } else none

/-- Modelled from the spec: `block_disk_close` of the absent `disk.c`. It fails
when no disk is open. -/
def block_disk_close (d : Disk) : Option Disk :=
  if d.opened then some { d with opened := false } else none

/-- Modelled from the spec: `block_disk_count` of the absent `disk.c`, the number
of blocks of the open disk, `-1` without one. -/
def block_disk_count (d : Disk) : Int :=
  if d.opened then (d.blocks.length : Int) else -1

/-- Modelled from the spec: `block_read` of the absent `disk.c`. The block's 4096
bytes, or `none` for the return code `-1` (no open disk, block out of range). -/
def block_read (d : Disk) (block : Int) : Option (List Nat) :=
  if d.opened ∧ 0 ≤ block then d.blocks[block.toNat]? else none

/-- Modelled from the spec: `block_write` of the absent `disk.c`. The disk with
block `block` replaced, or `none` for the return code `-1`. -/
def block_write (d : Disk) (block : Int) (buf : List Nat) : Option Disk :=
  if d.opened ∧ 0 ≤ block ∧ block.toNat < d.blocks.length then
    some { d with blocks := d.blocks.set block.toNat (buf.take BLOCK_SIZE) }
  else none

/-! ## Packed structures in memory -/

/-- The 4096 bytes of a block read as a `struct superblock`. -/
def parseSuperblock (b : List Nat) : superblock :=
  { signature := leValue (b.take 8)
    total_block := leValue ((b.drop 8).take 2)
    root_dir_block_index := leValue ((b.drop 10).take 2)
    data_block_start_index := leValue ((b.drop 12).take 2)
    number_of_data_block := leValue ((b.drop 14).take 2)
    number_of_fat_block := leValue ((b.drop 16).take 1)
    padding := b.drop 17 }

/-- The 32 bytes of a directory slot read as a `struct root_directory`. -/
def parseEntry (b : List Nat) : root_directory :=
  { filename := b.take 16
    size_of_file := leValue ((b.drop 16).take 4)
    index_first_data_block := leValue ((b.drop 20).take 2)
    padding := (b.drop 22).take 10 }

/-- The bytes a `struct root_directory` occupies. -/
def entryBytes (e : root_directory) : List Nat :=
  e.filename ++ (leBytes 4 e.size_of_file ++ (leBytes 2 e.index_first_data_block ++ e.padding))

/-- A block read into the array `Root_Directory`: `n` consecutive slots. -/
def parseDir : Nat → List Nat → List root_directory
  | 0, _ => []
  | n + 1, b => parseEntry (b.take 32) :: parseDir n (b.drop 32)

/-- The bytes of the array `Root_Directory`. -/
def dirBytes : List root_directory → List Nat
  | [] => []
  | e :: es => entryBytes e ++ dirBytes es

/-- The memory `malloc` returns for `n` entries of `uint16_t`: its content is
whatever the heap held, given by `heap`. -/
def mallocU16 (heap : List Nat) (n : Nat) : List Nat :=
  (List.range n).map (fun i => heap.getD i 0 % 65536)

/-- The initial state of the program: zero-initialised globals over a closed
disk. -/
def initFS (d : Disk) : FS :=
  { disk := d
    Superblock := parseSuperblock (List.replicate BLOCK_SIZE 0)
    Root_Directory := parseDir FS_FILE_MAX_COUNT (List.replicate BLOCK_SIZE 0)
    FAT := none
    Open_FD_Table := List.replicate FS_OPEN_MAX_COUNT
      { inUse := false, file_rdir_index := 0, offset := 0 } }

/-! ## Loading and flushing the FAT -/

/-- The loop of `readFAT`, from block `i` on with `n` rounds to go. The result is
the return code and the FAT as loaded so far; `none` when a copy leaves the
allocated FAT. -/
def readFAT_loop (d : Disk) (sb : superblock) : Nat → Nat → List Nat → Option (Int × List Nat)
  | 0, _, fat => some (0, fat)
  | n + 1, i, fat =>
    if (i : Int) = (sb.number_of_fat_block : Int) - 1 ∧
        sb.number_of_data_block % FAT_SIZE ≠ 0 then
      match block_read d ((i : Int) + 1) with
      | none => some (-1, fat)
      | some buffer =>
        match memcpy (u16ToBytes fat) (2 * (i * FAT_SIZE)) buffer 0
            (sb.number_of_data_block % FAT_SIZE) with
        | none => none
        | some m => readFAT_loop d sb n (i + 1) (bytesToU16 m)
    else
      match block_read d ((i : Int) + 1) with
      | none => some (-1, fat)
      | some b =>
        match memcpy (u16ToBytes fat) (2 * (i * FAT_SIZE)) b 0 BLOCK_SIZE with
        | none => none
        | some m => readFAT_loop d sb n (i + 1) (bytesToU16 m)

/-- The function `readFAT`. -/
def readFAT (d : Disk) (sb : superblock) (fat : List Nat) : Option (Int × List Nat) :=
  readFAT_loop d sb sb.number_of_fat_block 0 fat

/-- The loop of `writeFAT`, from block `i` on with `n` rounds to go. -/
def writeFAT_loop (sb : superblock) (fat : List Nat) : Nat → Nat → Disk → Option (Int × Disk)
  | 0, _, d => some (0, d)
  | n + 1, i, d =>
    if (i : Int) = (sb.number_of_fat_block : Int) - 1 ∧
        sb.number_of_data_block % FAT_SIZE ≠ 0 then
      match memcpy (List.replicate BLOCK_SIZE 0) 0 (u16ToBytes fat) (2 * (i * FAT_SIZE))
          (sb.number_of_data_block % FAT_SIZE) with
      | none => none
      | some buffer =>
        match block_write d ((i : Int) + 1) buffer with
        | none => some (-1, d)
        | some d' => writeFAT_loop sb fat n (i + 1) d'
    else
      match block_write d ((i : Int) + 1) ((u16ToBytes fat).drop (2 * (i * FAT_SIZE))) with
      | none => some (-1, d)
      | some d' =>
        if 2 * (i * FAT_SIZE) + BLOCK_SIZE ≤ (u16ToBytes fat).length then
          writeFAT_loop sb fat n (i + 1) d'
        else none

/-- The function `writeFAT`. -/
def writeFAT (sb : superblock) (fat : List Nat) (d : Disk) : Option (Int × Disk) :=
  writeFAT_loop sb fat sb.number_of_fat_block 0 d

/-! ## Mounting and unmounting -/

/-- The function `fs_mount`. `heap` is the content of the memory `malloc` hands
out for the FAT. -/
def fs_mount (heap : List Nat) (st : FS) (diskname : Option (List Nat)) : Option (Int × FS) :=
  match diskname with
  | none => some (-1, st)
  | some n =>
    match block_disk_open st.disk n with
    | none => some (-1, st)
    | some d =>
      match block_read d 0 with
      | none => some (-1, { st with disk := d })
      | some b =>
        let sb := parseSuperblock b
        if sb.signature ≠ SIGNATURE then some (-1, { st with disk := d, Superblock := sb })
        else if block_disk_count d ≠ (sb.total_block : Int) then
          some (-1, { st with disk := d, Superblock := sb })
        else
          match readFAT d sb (mallocU16 heap sb.number_of_data_block) with
          | none => none
          | some (r, fat) =>
            if r = -1 then some (-1, { st with disk := d, Superblock := sb, FAT := some fat })
            else
              match fat[0]? with
              | none => none
              | some f0 =>
                if f0 ≠ FAT_EOC then
                  some (-1, { st with disk := d, Superblock := sb, FAT := some fat })
                else
                  match block_read d (sb.root_dir_block_index : Int) with
                  | none => some (-1, { st with disk := d, Superblock := sb, FAT := some fat })
                  | some rb =>
                    some (0,
                      { disk := d
                        Superblock := sb
                        Root_Directory := parseDir FS_FILE_MAX_COUNT rb
                        FAT := some fat
                        Open_FD_Table := st.Open_FD_Table.map
                          (fun s => { s with inUse := false, file_rdir_index := -1 }) })

/-- The function `fs_umount`. -/
def fs_umount (st : FS) : Option (Int × FS) :=
  match st.FAT with
  | none => some (-1, st)
  | some fat =>
    match writeFAT st.Superblock fat st.disk with
    | none => none
    | some (r, d) =>
      if r = -1 then some (-1, { st with disk := d })
      else if st.Open_FD_Table.any (fun s => s.inUse) then some (-1, { st with disk := d })
      else
        match block_write d (st.Superblock.root_dir_block_index : Int)
            (dirBytes st.Root_Directory) with
        | none => some (-1, { st with disk := d })
        | some d' =>
          match block_disk_close d' with
          | none => some (-1, { st with disk := d' })
          | some d'' => some (0, { st with disk := d'', FAT := none })

/-! ## The root directory -/

/-- The element `Root_Directory[i]` for an `int` index: `none` outside the array. -/
def rdirAt (dir : List root_directory) (i : Int) : Option root_directory :=
  if 0 ≤ i then dir[i.toNat]? else none

/-- The lookup loop shared by `fs_delete` and `fs_open`: the first index `i`, counted
from `i0`, with `strcmp(Root_Directory[i].filename, filename) == 0`. -/
def find_file (filename : List Nat) : List root_directory → Nat → Option Nat
  | [], _ => none
  | e :: rest, i => if strcmp0 e.filename filename then some i else find_file filename rest (i + 1)

/-- The scanning loop of `fs_create` from index `i` on: the final values of
`found_empty`, `empty_entry_index` and `file_exist`. -/
def create_scan (filename : List Nat) :
    List root_directory → Nat → Bool → Nat → Bool × Nat × Bool
  | [], _, found_empty, empty_entry_index => (found_empty, empty_entry_index, false)
  | e :: rest, i, found_empty, empty_entry_index =>
    let found := (e.filename.getD 0 0 == 0 && !found_empty)
    let found_empty' := if found then true else found_empty
    let empty_entry_index' := if found then i else empty_entry_index
    if strcmp0 e.filename filename then (found_empty', empty_entry_index', true)
    else create_scan filename rest (i + 1) found_empty' empty_entry_index'

/-- The function `fs_create`. -/
def fs_create (st : FS) (filename : Option (List Nat)) : Int × FS :=
  match st.FAT, filename with
  | none, _ => (-1, st)
  | some _, none => (-1, st)
  | some _, some name =>
    if strlen name > FS_FILENAME_LEN - 1 then (-1, st)
    else
      match create_scan name st.Root_Directory 0 false 0 with
      | (found_empty, empty_entry_index, file_exist) =>
        if !found_empty || file_exist then (-1, st)
        else
          (0, { st with Root_Directory := (st.Root_Directory.modify
                  (fun e => { e with filename := strcpy e.filename name
                                     size_of_file := 0
                                     index_first_data_block := FAT_EOC })
                  empty_entry_index) })

/-- The loop `while (curr_fat_index != FAT_EOC)` of `fs_delete`, run for at most
`fuel` rounds: `none` when `FAT` is indexed outside its allocation or the fuel
runs out. -/
def free_chain : Nat → List Nat → Nat → Option (List Nat)
  | 0, fat, curr => if curr = FAT_EOC then some fat else none
  | fuel + 1, fat, curr =>
    if curr = FAT_EOC then some fat
    else
      match fat[curr]? with
      | none => none
      | some next => free_chain fuel (fat.set curr 0) next

/-- The function `fs_delete`; `fuel` bounds the rounds of its freeing loop. -/
def fs_delete (fuel : Nat) (st : FS) (filename : Option (List Nat)) : Option (Int × FS) :=
  match st.FAT, filename with
  | none, _ => some (-1, st)
  | some _, none => some (-1, st)
  | some fat, some name =>
    if strlen name > FS_FILENAME_LEN - 1 then some (-1, st)
    else
      match find_file name st.Root_Directory 0 with
      | none => some (-1, st)
      | some rdir_index =>
        match st.Root_Directory[rdir_index]? with
        | none => none
        | some e =>
          let st1 : FS := { st with Root_Directory := (st.Root_Directory.set rdir_index
            { e with filename := e.filename.set 0 0
                     index_first_data_block := FAT_EOC
                     size_of_file := 0 }) }
          if st.Open_FD_Table.any (fun s => s.file_rdir_index == (rdir_index : Int)) then
            some (-1, st1)
          else
            match free_chain fuel fat e.index_first_data_block with
            | none => none
            | some fat' => some (0, { st1 with FAT := some fat' })

/-! ## The descriptor table -/

/-- The first loop of `fs_open`: the lowest slot not in use, counted from `i`. -/
def find_fd : List file_descriptor → Nat → Option Nat
  | [], _ => none
  | s :: rest, i => if !s.inUse then some i else find_fd rest (i + 1)

/-- The function `fs_open`. The test `rdir_index == FS_FILE_MAX_COUNT` stands
before the lookup loop, where `rdir_index` is still 0; after the loop
`rdir_index` is the slot found, or `FS_FILE_MAX_COUNT` when no slot matches. -/
def fs_open (st : FS) (filename : Option (List Nat)) : Int × FS :=
  match st.FAT, filename with
  | none, _ => (-1, st)
  | some _, none => (-1, st)
  | some _, some name =>
    if strlen name > FS_FILENAME_LEN - 1 then (-1, st)
    else
      match find_fd st.Open_FD_Table 0 with
      | none => (-1, st)
      | some fd =>
        if (0 : Nat) = FS_FILE_MAX_COUNT then (-1, st)
        else
          let rdir_index : Nat :=
            match find_file name st.Root_Directory 0 with
            | some i => i
            | none => FS_FILE_MAX_COUNT
          ((fd : Int), { st with Open_FD_Table := (st.Open_FD_Table.set fd
            { inUse := true, file_rdir_index := (rdir_index : Int), offset := 0 }) })

/-- The function `fs_close`. -/
def fs_close (st : FS) (fd : Int) : Option (Int × FS) :=
  if st.FAT = none ∨ fd > (FS_OPEN_MAX_COUNT : Int) - 1 ∨ fd < 0 then some (-1, st)
  else
    match st.Open_FD_Table[fd.toNat]? with
    | none => none
    | some s =>
      if !s.inUse then some (-1, st)
      else some (0, { st with Open_FD_Table := (st.Open_FD_Table.set fd.toNat
        { inUse := false, file_rdir_index := -1, offset := 0 }) })

/-- The function `fs_stat`; `none` when `Root_Directory` is indexed outside the
array. -/
def fs_stat (st : FS) (fd : Int) : Option Int :=
  if st.FAT = none ∨ fd > (FS_OPEN_MAX_COUNT : Int) - 1 ∨ fd < 0 then some (-1)
  else
    match st.Open_FD_Table[fd.toNat]? with
    | none => none
    | some s =>
      if !s.inUse then some (-1)
      else
        match rdirAt st.Root_Directory s.file_rdir_index with
        | none => none
        | some e => some (toInt32 e.size_of_file)

/-- The function `fs_lseek`. -/
def fs_lseek (st : FS) (fd : Int) (offset : Nat) : Option (Int × FS) :=
  if st.FAT = none ∨ fd > (FS_OPEN_MAX_COUNT : Int) - 1 ∨ fd < 0 then some (-1, st)
  else
    match st.Open_FD_Table[fd.toNat]? with
    | none => none
    | some s =>
      if !s.inUse then some (-1, st)
      else
        match fs_stat st fd with
        | none => none
        | some r =>
          if r = -1 then some (-1, st)
          else
            match rdirAt st.Root_Directory s.file_rdir_index with
            | none => none
            | some e =>
              if e.size_of_file < offset then some (-1, st)
              else some (0, { st with Open_FD_Table := (st.Open_FD_Table.set fd.toNat
                { s with offset := offset }) })

/-! ## The I/O engine -/

/-- The loop of `data_block_offset`: `n` times `curr_index = FAT[curr_index]`. -/
def walk_chain (fat : List Nat) : Nat → Nat → Option Nat
  | 0, curr_index => some curr_index
  | n + 1, curr_index =>
    match fat[curr_index]? with
    | none => none
    | some next => walk_chain fat n next

/-- The function `data_block_offset`: the block index reached from the file's
first block after `(int)offset / BLOCK_SIZE` hops. -/
def data_block_offset (st : FS) (fd : Int) : Option Nat :=
  match st.FAT, st.Open_FD_Table[fd.toNat]? with
  | some fat, some s =>
    match rdirAt st.Root_Directory s.file_rdir_index with
    | none => none
    | some e =>
      walk_chain fat (Int.tdiv (toInt32 s.offset) (BLOCK_SIZE : Int)).toNat
        e.index_first_data_block
  | _, _ => none

/-- The loop of `find_empty_FAT` from `index` on with `n` entries to go. -/
def find_empty_FAT_loop (fat : List Nat) : Nat → Nat → Option Int
  | 0, _ => some (-1)
  | n + 1, index =>
    match fat[index]? with
    | none => none
    | some v => if v = 0 then some (index : Int) else find_empty_FAT_loop fat n (index + 1)

/-- The function `find_empty_FAT`: the lowest index below `number_of_data_block`
whose entry is 0, or `-1`. -/
def find_empty_FAT (sb : superblock) (fat : List Nat) : Option Int :=
  find_empty_FAT_loop fat sb.number_of_data_block 0

/-- The function `num_data_block_access`, with the wrap-around of `size_t` and the
conversion of the quotient to `int`. -/
def num_data_block_access (count curr_offset : Nat) : Int :=
  let curr_offset := if curr_offset > BLOCK_SIZE - 1 then curr_offset % BLOCK_SIZE else curr_offset
  let remain_count := addSizeT (subSizeT count BLOCK_SIZE) curr_offset
  let number := toInt32 (addSizeT 1 (remain_count / BLOCK_SIZE))
  if remain_count % BLOCK_SIZE ≠ 0 then number + 1 else number

/-- The allocation step at the head of a round of the loop of `fs_write`. Outer
`none`: `FAT` indexed outside its allocation. Inner `none`: no free entry, the
function returns. Otherwise the FAT after linking a new block if one was needed. -/
def write_alloc (sb : superblock) (fat : List Nat) (curr : Nat) (i access : Int) :
    Option (Option (List Nat)) :=
  match fat[curr]? with
  | none => none
  | some v =>
    if v = FAT_EOC ∧ i < access - 1 then
      match find_empty_FAT sb fat with
      | none => none
      | some empty_index =>
        if empty_index = -1 then some none
        else some (some ((fat.set curr empty_index.toNat).set empty_index.toNat FAT_EOC))
    else some (some fat)

/-- The copy of round `i` of `fs_write` from the caller's `buf` into the scratch
`buffer`: the new scratch buffer and the new `count_written`. -/
def write_copy (buf : List Nat) (count curr_offset : Nat) (access i : Int)
    (buffer : List Nat) (count_written : Nat) : Option (List Nat × Nat) :=
  if i = 0 then
    let n := toSizeT (min (toInt32 count) (toInt32 (subSizeT BLOCK_SIZE curr_offset)))
    (memcpy buffer curr_offset buf 0 n).map (fun b => (b, addSizeT count_written n))
  else if i = access - 1 then
    let n := subSizeT count count_written
    (memcpy buffer 0 buf count_written n).map (fun b => (b, addSizeT count_written n))
  else
    (memcpy buffer 0 buf count_written BLOCK_SIZE).map
      (fun b => (b, addSizeT count_written BLOCK_SIZE))

/-- The loop of `fs_write` at round `i` with `n` rounds to go. The result holds
whether the function returned from inside the loop, the FAT, the disk and
`count_written`. -/
def write_loop (sb : superblock) (buf : List Nat) (count curr_offset : Nat) (access : Int) :
    Nat → Int → List Nat → Disk → List Nat → Nat → Nat → Option (Bool × List Nat × Disk × Nat)
  | 0, _, fat, d, _, count_written, _ => some (false, fat, d, count_written)
  | n + 1, i, fat, d, buffer, count_written, curr =>
    match write_alloc sb fat curr i access with
    | none => none
    | some none => some (true, fat, d, count_written)
    | some (some fat1) =>
      let block : Int := (sb.data_block_start_index : Int) + (curr : Int)
      let buffer1 := (block_read d block).getD buffer
      match write_copy buf count curr_offset access i buffer1 count_written with
      | none => none
      | some (buffer2, count_written2) =>
        let d2 := (block_write d block buffer2).getD d
        match fat1[curr]? with
        | none => none
        | some next =>
          write_loop sb buf count curr_offset access n (i + 1) fat1 d2 buffer2 count_written2 next

/-- The first step of `fs_write` on an empty file: a block is taken from the FAT
and stored as the file's first block. Outer `none`: memory fault. Inner `none`:
the FAT is full and `fs_write` returns 0. -/
def write_first (sb : superblock) (fat : List Nat) (e : root_directory) :
    Option (Option (List Nat × root_directory)) :=
  if e.index_first_data_block = FAT_EOC then
    match find_empty_FAT sb fat with
    | none => none
    | some empty_index =>
      if empty_index = -1 then some none
      else some (some (fat.set empty_index.toNat FAT_EOC,
        { e with index_first_data_block := empty_index.toNat }))
  else some (some (fat, e))

/-- The function `fs_write`. `buffer` is the initial content of the local scratch
array; `buf` is the caller's memory (`none` for NULL). -/
def fs_write (buffer : List Nat) (st : FS) (fd : Int) (buf : Option (List Nat)) (count : Nat) :
    Option (Int × FS) :=
  match st.FAT, buf with
  | none, _ => some (-1, st)
  | some _, none => some (-1, st)
  | some fat, some b =>
    if fd > (FS_OPEN_MAX_COUNT : Int) - 1 ∨ fd < 0 then some (-1, st)
    else
      match st.Open_FD_Table[fd.toNat]? with
      | none => none
      | some s =>
        if !s.inUse then some (-1, st)
        else if count = 0 then some (0, st)
        else
          match rdirAt st.Root_Directory s.file_rdir_index with
          | none => none
          | some e =>
            match write_first st.Superblock fat e with
            | none => none
            | some none => some (0, st)
            | some (some (fat1, e1)) =>
              let st1 : FS := { st with FAT := some fat1, Root_Directory :=
                (st.Root_Directory.set s.file_rdir_index.toNat e1) }
              match data_block_offset st1 fd with
              | none => none
              | some curr =>
                let access := num_data_block_access count s.offset
                let curr_offset :=
                  if s.offset ≥ BLOCK_SIZE then subSizeT s.offset BLOCK_SIZE else s.offset
                match write_loop st.Superblock b count curr_offset access access.toNat 0
                    fat1 st.disk buffer 0 curr with
                | none => none
                | some (true, fat2, d2, count_written) =>
                  some (toInt32 count_written, { st1 with FAT := some fat2, disk := d2 })
                | some (false, fat2, d2, count_written) =>
                  let offset := addSizeT s.offset count_written
                  let size := toUInt32 (max (toInt32 offset) (toInt32 e1.size_of_file))
                  some (toInt32 count_written,
                    { st1 with
                      FAT := some fat2
                      disk := d2
                      Open_FD_Table := (st.Open_FD_Table.set fd.toNat { s with offset := offset })
                      Root_Directory := (st1.Root_Directory.set s.file_rdir_index.toNat
                        { e1 with size_of_file := size }) })

/-- The copy of round `i` of `fs_read` from the scratch `buffer` into the caller's
`buf`: the new `buf` and the new `count_read`. -/
def read_copy (buffer : List Nat) (count curr_offset : Nat) (access i : Int)
    (buf : List Nat) (count_read : Nat) : Option (List Nat × Nat) :=
  if i = 0 then
    let n := toSizeT (min (toInt32 count) (toInt32 (subSizeT BLOCK_SIZE curr_offset)))
    (memcpy buf count_read buffer curr_offset n).map (fun b => (b, addSizeT count_read n))
  else if i = access - 1 then
    let n := subSizeT count count_read
    (memcpy buf count_read buffer 0 n).map (fun b => (b, addSizeT count_read n))
  else
    (memcpy buf count_read buffer 0 BLOCK_SIZE).map
      (fun b => (b, addSizeT count_read BLOCK_SIZE))

/-- The loop of `fs_read` at round `i` with `n` rounds to go: the caller's buffer
and `count_read` when the loop ends or breaks. -/
def read_loop (sb : superblock) (fat : List Nat) (d : Disk) (count curr_offset : Nat)
    (access : Int) : Nat → Int → List Nat → List Nat → Nat → Nat → Option (List Nat × Nat)
  | 0, _, _, buf, count_read, _ => some (buf, count_read)
  | n + 1, i, buffer, buf, count_read, curr =>
    let buffer1 :=
      (block_read d ((sb.data_block_start_index : Int) + (curr : Int))).getD buffer
    match read_copy buffer1 count curr_offset access i buf count_read with
    | none => none
    | some (buf2, count_read2) =>
      match fat[curr]? with
      | none => none
      | some next =>
        if next = FAT_EOC then some (buf2, count_read2)
        else read_loop sb fat d count curr_offset access n (i + 1) buffer1 buf2 count_read2 next

/-- The function `fs_read`. `buffer` is the initial content of the local scratch
array; `buf` is the caller's memory (`none` for NULL). The result holds the return
value, the caller's memory afterwards and the state. -/
def fs_read (buffer : List Nat) (st : FS) (fd : Int) (buf : Option (List Nat)) (count : Nat) :
    Option (Int × Option (List Nat) × FS) :=
  match st.FAT with
  | none => some (-1, buf, st)
  | some fat =>
    if fd > (FS_OPEN_MAX_COUNT : Int) - 1 ∨ fd < 0 then some (-1, buf, st)
    else
      match st.Open_FD_Table[fd.toNat]? with
      | none => none
      | some s =>
        match buf with
        | none => some (-1, buf, st)
        | some b =>
          if !s.inUse then some (-1, buf, st)
          else if count = 0 then some (0, buf, st)
          else
            match data_block_offset st fd, fs_stat st fd with
            | some curr, some size =>
              let access : Int :=
                if toInt32 s.offset < size - 1 then num_data_block_access count s.offset else 0
              let curr_offset :=
                if s.offset ≥ BLOCK_SIZE then subSizeT s.offset BLOCK_SIZE else s.offset
              match read_loop st.Superblock fat st.disk count curr_offset access access.toNat 0
                  buffer b 0 curr with
              | none => none
              | some (b', count_read) =>
                some (toInt32 count_read, some b',
                  { st with Open_FD_Table := (st.Open_FD_Table.set fd.toNat
                      { s with offset := addSizeT s.offset count_read }) })
            | _, _ => none

/-! ## Concrete disks and scenarios

The scenarios of the specification run on a disk with 4 data blocks: block 0 is
the superblock, block 1 the FAT, block 2 the root directory, blocks 3 to 6 the
data region. -/

/-- A block of 4096 zero bytes. -/
def zeroBlock : List Nat := List.replicate BLOCK_SIZE 0

/-- The superblock of a disk of 7 blocks: signature, 7 blocks in total, root
directory in block 2, data from block 3, 4 data blocks, 1 FAT block. -/
def superBlock4 : List Nat :=
  leBytes 8 SIGNATURE ++ (leBytes 2 7 ++ (leBytes 2 2 ++ (leBytes 2 3 ++ (leBytes 2 4 ++
    (1 :: List.replicate 4079 0)))))

/-- The name of the backing file, `"disk"`. -/
def diskName : List Nat := [100, 105, 115, 107]

/-- A freshly formatted disk with 4 data blocks: `FAT[0] = 0xFFFF`, every other
byte of the FAT, the root directory and the data region zero. -/
def image4 : Disk :=
  { name := diskName
    opened := false
    blocks := [superBlock4, 255 :: 255 :: List.replicate 4094 0,
      zeroBlock, zeroBlock, zeroBlock, zeroBlock, zeroBlock] }

/-- The file name `"a"`. -/
def fileA : List Nat := [97]

/-- The bytes of `"hello"`. -/
def hello : List Nat := [104, 101, 108, 108, 111]

/-- A call that is expected to return `r`: its state when it does, `none` when it
returns something else or has no result. -/
def expect (r : Int) (x : Option (Int × FS)) : Option FS :=
  x.bind (fun p => if p.1 = r then some p.2 else none)

/-- The state after `fs_mount` of `image4` from the initial state returned 0 (the
heap holds zeros). -/
def mounted4 : Option FS :=
  expect 0 (fs_mount [] (initFS image4) (some diskName))

/-- Scenario S1 up to its write, on the mounted `image4`: `create("a")` returned 0,
`open("a")` returned descriptor 0 and `write(0, "hello", 5)` returned 5. -/
def scenario_hello : Option FS :=
  ((mounted4.bind (fun s => expect 0 (some (fs_create s (some fileA))))).bind
    (fun s => expect 0 (some (fs_open s (some fileA))))).bind
    (fun s => expect 5 (fs_write zeroBlock s 0 (some hello) 5))

/-- The offset of descriptor `fd`. -/
def offset_of (st : FS) (fd : Nat) : Option Nat :=
  st.Open_FD_Table[fd]?.map (fun s => s.offset)

/-! ## Chains and directory predicates -/

/-- The list `chain` is the FAT chain that starts at `curr`: each block is inside
the FAT, is followed by the block its entry names, and the last entry is
`FAT_EOC`. -/
def is_chain (fat : List Nat) : Nat → List Nat → Bool
  | curr, [] => curr == FAT_EOC
  | curr, c :: rest =>
    c == curr && (curr != FAT_EOC &&
      (match fat[curr]? with
       | none => false
       | some next => is_chain fat next rest))

/-- The FAT with the entries of the listed blocks set to 0. -/
def zero_entries (fat : List Nat) (chain : List Nat) : List Nat :=
  chain.foldl (fun f j => f.set j 0) fat

/-- A directory slot is empty: the first byte of its file name is NUL. -/
def is_empty_slot (e : root_directory) : Prop := e.filename.getD 0 0 = 0

instance (e : root_directory) : Decidable (is_empty_slot e) := by
  unfold is_empty_slot; infer_instance

/-- Two directory slots are both in use and hold the same NUL-terminated name. -/
def same_name (a b : root_directory) : Prop :=
  ¬ is_empty_slot a ∧ ¬ is_empty_slot b ∧ cstr a.filename = cstr b.filename

instance (a b : root_directory) : Decidable (same_name a b) := by
  unfold same_name; infer_instance

/-- No two non-empty slots of the directory hold the same name. -/
def names_unique (dir : List root_directory) : Prop :=
  dir.Pairwise (fun a b => ¬ same_name a b)

instance (dir : List root_directory) : Decidable (names_unique dir) := by
  unfold names_unique; infer_instance

/-- The number of blocks of the chain that starts at `curr`, followed for at most
`fuel` blocks: `none` when the chain leaves the FAT or does not end in time. -/
def chain_length (fat : List Nat) : Nat → Nat → Option Nat
  | 0, curr => if curr = FAT_EOC then some 0 else none
  | fuel + 1, curr =>
    if curr = FAT_EOC then some 0
    else
      match fat[curr]? with
      | none => none
      | some next => (chain_length fat fuel next).map (fun k => k + 1)

/-- The chain-length invariant of the specification: every non-empty slot of size
`S` has a chain of exactly `⌈S / 4096⌉` blocks. -/
def chain_invariant (st : FS) : Bool :=
  match st.FAT with
  | none => false
  | some fat =>
    st.Root_Directory.all (fun e =>
      e.filename.getD 0 0 == 0 ||
        chain_length fat fat.length e.index_first_data_block
          == some ((e.size_of_file + (BLOCK_SIZE - 1)) / BLOCK_SIZE))

/-! ## Further scenarios -/

/-- The file name `"b"`. -/
def fileB : List Nat := [98]

/-- The file name `"c"`. -/
def fileC : List Nat := [99]

/-- The sequence of the persistence round trip on the mounted `image4`:
`create(f)`, `open(f)`, `write(0, B, len B)`, `close(0)`, `umount`, `mount`,
`open(f)`, each returning what the round trip expects, then
`read(0, buf, len B)` into a zeroed `buf`. The result is the return value of the
read and `buf` afterwards. -/
def persistence_read (f B : List Nat) : Option (Int × Option (List Nat)) :=
  ((((((((mounted4.bind
    (fun s => expect 0 (some (fs_create s (some f))))).bind
    (fun s => expect 0 (some (fs_open s (some f))))).bind
    (fun s => expect B.length (fs_write zeroBlock s 0 (some B) B.length))).bind
    (fun s => expect 0 (fs_close s 0))).bind
    (fun s => expect 0 (fs_umount s))).bind
    (fun s => expect 0 (fs_mount [] s (some diskName)))).bind
    (fun s => expect 0 (some (fs_open s (some f))))).bind
    (fun s => fs_read zeroBlock s 0 (some (List.replicate B.length 0)) B.length)).map
    (fun r => (r.1, r.2.1))

/-- Scenario S3 up to its first write, on the mounted `image4`: `create("c")`
returned 0 and `open("c")` returned descriptor 0. -/
def scenario_open_c : Option FS :=
  (mounted4.bind (fun s => expect 0 (some (fs_create s (some fileC))))).bind
    (fun s => expect 0 (some (fs_open s (some fileC))))

/-- Scenario S3: after `scenario_open_c`, the call `write(0, Z, 4 * 4096)` with
16384 bytes `'Z'`. The result is the return value and the state. -/
def scenario_fill : Option (Int × FS) :=
  scenario_open_c.bind
    (fun s => fs_write zeroBlock s 0 (some (List.replicate 16384 90)) 16384)

/-- The name, size and first block of directory slot `i`, the name given by its
first byte. -/
def slot_summary (st : FS) (i : Nat) : Option (Nat × Nat × Nat) :=
  st.Root_Directory[i]?.map
    (fun e => (e.filename.getD 0 0, e.size_of_file, e.index_first_data_block))

/-- A directory slot with the given name, size and first block, padded with
zeros. -/
def entryOf (name : List Nat) (size first : Nat) : root_directory :=
  { filename := name ++ List.replicate (16 - name.length) 0
    size_of_file := size
    index_first_data_block := first
    padding := List.replicate 10 0 }

/-- A disk with 4 data blocks that holds one file `"a"` of 12288 bytes in the
data blocks 1, 2 and 3: `FAT = [0xFFFF, 2, 3, 0xFFFF]`. -/
def image4_full : Disk :=
  { name := diskName
    opened := false
    blocks := [superBlock4,
      [255, 255, 2, 0, 3, 0, 255, 255] ++ List.replicate 4088 0,
      entryBytes (entryOf fileA 12288 1) ++ List.replicate 4064 0,
      zeroBlock, zeroBlock, zeroBlock, zeroBlock] }

/-- A mounted state of `image4` with two files: `"a"` of 5000 bytes in the data
blocks 1 and 2, and the empty file `"b"`, which descriptor 0 has open. -/
def stateAB : FS :=
  { disk := { image4 with opened := true }
    Superblock := parseSuperblock superBlock4
    Root_Directory :=
      entryOf fileA 5000 1 :: entryOf fileB 0 FAT_EOC :: List.replicate 126 (entryOf [] 0 0)
    FAT := some [FAT_EOC, 2, FAT_EOC, 0]
    Open_FD_Table :=
      { inUse := true, file_rdir_index := 1, offset := 0 } ::
        List.replicate 31 { inUse := false, file_rdir_index := -1, offset := 0 } }

/-- The state `stateAB` with descriptor 0 on `"a"` (slot 0, 5000 bytes) instead, at
offset 4999, the last byte of the file. -/
def stateA_last_byte : FS :=
  { stateAB with
    Open_FD_Table :=
      { inUse := true, file_rdir_index := 0, offset := 4999 } ::
        List.replicate 31 { inUse := false, file_rdir_index := -1, offset := 0 } }

/-! ## Disks and states for the mount, seek and block-boundary claims -/

/-- A superblock with the given signature, total block count, root-directory
index, first-data-block index, data-block count and FAT-block count. -/
def superBlockOf (signature total root dstart ndb nfat : Nat) : List Nat :=
  leBytes 8 signature ++ (leBytes 2 total ++ (leBytes 2 root ++ (leBytes 2 dstart ++
    (leBytes 2 ndb ++ (leBytes 1 nfat ++ List.replicate 4079 0)))))

/-- A disk like `image4` whose signature field holds `0x5346303532303441`, the
value the specification prints. -/
def image4_spec_signature : Disk :=
  { image4 with blocks := [superBlockOf 0x5346303532303441 7 2 3 4 1,
      255 :: 255 :: List.replicate 4094 0,
      zeroBlock, zeroBlock, zeroBlock, zeroBlock, zeroBlock] }

/-- A freshly formatted disk with 2 data blocks (5 blocks in total), of which data
block 0 is reserved and data block 1 is the only one a file can get. -/
def image2 : Disk :=
  { name := diskName
    opened := false
    blocks := [superBlockOf SIGNATURE 5 2 3 2 1, 255 :: 255 :: List.replicate 4094 0,
      zeroBlock, zeroBlock, zeroBlock] }

/-- The disk `image2` filled up: after `mount` returned 0, `create("c")` returned
0, `open("c")` returned descriptor 0 and `write(0, Z, 4096)` returned 4096. -/
def scenario_full2 : Option FS :=
  (((expect 0 (fs_mount [] (initFS image2) (some diskName))).bind
    (fun s => expect 0 (some (fs_create s (some fileC))))).bind
    (fun s => expect 0 (some (fs_open s (some fileC))))).bind
    (fun s => expect 4096 (fs_write zeroBlock s 0 (some (List.replicate 4096 90)) 4096))

/-- A mounted state of `image4_full`: the file `"a"` of 12288 bytes occupies the
data blocks 1, 2 and 3, and descriptor 0 has it open at byte offset `off`. -/
def state_three_blocks (off : Nat) : FS :=
  { disk := { image4_full with opened := true }
    Superblock := parseSuperblock superBlock4
    Root_Directory := entryOf fileA 12288 1 :: List.replicate 127 (entryOf [] 0 0)
    FAT := some [FAT_EOC, 2, 3, FAT_EOC]
    Open_FD_Table :=
      { inUse := true, file_rdir_index := 0, offset := off } ::
        List.replicate 31 { inUse := false, file_rdir_index := -1, offset := 0 } }

/-- The state `stateAB` with the size field of `"b"`, which descriptor 0 has open,
set to `0xFFFFFFFF`. -/
def state_max_size : FS :=
  { stateAB with
    Root_Directory :=
      entryOf fileA 5000 1 :: entryOf fileB 4294967295 FAT_EOC ::
        List.replicate 126 (entryOf [] 0 0) }

/-! ## Predicates of the create contract -/

/-- Some non-empty slot of the directory holds the NUL-terminated name `name`. -/
def name_present (dir : List root_directory) (name : List Nat) : Prop :=
  ∃ e ∈ dir, ¬ is_empty_slot e ∧ cstr e.filename = cstr name

instance (dir : List root_directory) (name : List Nat) : Decidable (name_present dir name) := by
  unfold name_present; infer_instance

/-- Slot `k` holds `e`, is empty, and no slot before it is empty. -/
def lowest_empty_slot (dir : List root_directory) (k : Nat) (e : root_directory) : Prop :=
  dir[k]? = some e ∧ is_empty_slot e ∧ ∀ x ∈ dir.take k, ¬ is_empty_slot x

instance (dir : List root_directory) (k : Nat) (e : root_directory) :
    Decidable (lowest_empty_slot dir k e) := by
  unfold lowest_empty_slot; infer_instance

/-! ## Named slots and mounted states -/

/-- Slot `i` holds `e`, `e` is in use and holds the NUL-terminated name `name`,
and no slot before `i` holds that name. -/
def lowest_slot_named (dir : List root_directory) (name : List Nat) (i : Nat)
    (e : root_directory) : Prop :=
  dir[i]? = some e ∧ ¬ is_empty_slot e ∧ cstr e.filename = cstr name ∧
    ∀ x ∈ dir.take i, cstr x.filename ≠ cstr name

instance (dir : List root_directory) (name : List Nat) (i : Nat) (e : root_directory) :
    Decidable (lowest_slot_named dir name i e) := by
  unfold lowest_slot_named; infer_instance

/-- The mounted states: the state a call of `fs_mount` that returned 0 leaves, and
every state that a call of `fs_create`, `fs_delete`, `fs_open`, `fs_close`,
`fs_lseek`, `fs_write` or `fs_read` leaves when made in a mounted state, whatever
its arguments and its return value. -/
inductive Mounted : FS → Prop
  | mount (heap : List Nat) (st : FS) (n : List Nat) (st' : FS) :
      fs_mount heap st (some n) = some (0, st') → Mounted st'
  | create (st : FS) (filename : Option (List Nat)) :
      Mounted st → Mounted (fs_create st filename).2
  | delete (fuel : Nat) (st : FS) (filename : Option (List Nat)) (r : Int) (st' : FS) :
      Mounted st → fs_delete fuel st filename = some (r, st') → Mounted st'
  | openFile (st : FS) (filename : Option (List Nat)) :
      Mounted st → Mounted (fs_open st filename).2
  | close (st : FS) (fd : Int) (r : Int) (st' : FS) :
      Mounted st → fs_close st fd = some (r, st') → Mounted st'
  | lseek (st : FS) (fd : Int) (offset : Nat) (r : Int) (st' : FS) :
      Mounted st → fs_lseek st fd offset = some (r, st') → Mounted st'
  | write (buffer : List Nat) (st : FS) (fd : Int) (buf : Option (List Nat)) (count : Nat)
      (r : Int) (st' : FS) :
      Mounted st → fs_write buffer st fd buf count = some (r, st') → Mounted st'
  | read (buffer : List Nat) (st : FS) (fd : Int) (buf : Option (List Nat)) (count : Nat)
      (r : Int) (buf' : Option (List Nat)) (st' : FS) :
      Mounted st → fs_read buffer st fd buf count = some (r, buf', st') → Mounted st'

/-- Every state the scenario `x` ends in is a mounted state. -/
def AllMounted (x : Option FS) : Prop := ∀ s, x = some s → Mounted s

/-- On the mounted `image4`: `create("a")` returned 0, `open("a")` returned
descriptor 0, `write(0, zeros, 12288)` returned 12288 and `lseek(0, off)`
returned 0. -/
def scenario_seek (off : Nat) : Option FS :=
  (((mounted4.bind
    (fun s => expect 0 (some (fs_create s (some fileA))))).bind
    (fun s => expect 0 (some (fs_open s (some fileA))))).bind
    (fun s => expect 12288 (fs_write zeroBlock s 0 (some (List.replicate 12288 0)) 12288))).bind
    (fun s => expect 0 (fs_lseek s 0 off))

set_option maxRecDepth 100000

/-! ## Lemmas on chains -/

theorem is_chain_cons (fat : List Nat) (curr c : Nat) (rest : List Nat) :
    is_chain fat curr (c :: rest) = true ↔
      c = curr ∧ curr ≠ FAT_EOC ∧ ∃ next, fat[curr]? = some next ∧ is_chain fat next rest = true := by
  cases h : fat[curr]? with
  | none => simp [is_chain, h]
  | some next => simp [is_chain, h]

theorem is_chain_set (fat : List Nat) (x v : Nat) :
    ∀ (chain : List Nat) (curr : Nat), x ∉ chain →
      is_chain (fat.set x v) curr chain = is_chain fat curr chain := by
  intro chain
  induction chain with
  | nil => intro curr _; simp [is_chain]
  | cons c rest ih =>
    intro curr hx
    have hc : x ≠ c := fun h => hx (by simp [h])
    have hr : x ∉ rest := fun h => hx (by simp [h])
    by_cases hcc : c = curr
    · subst hcc
      simp only [is_chain, List.getElem?_set_ne hc]
      cases fat[c]? with
      | none => rfl
      | some next => simp [ih next hr]
    · have hb : (c == curr) = false := by simpa using hcc
      simp [is_chain, hb]

theorem is_chain_lt (fat : List Nat) :
    ∀ (chain : List Nat) (curr : Nat), is_chain fat curr chain = true →
      ∀ j ∈ chain, j < fat.length := by
  intro chain
  induction chain with
  | nil => intro curr _ j hj; simp at hj
  | cons c rest ih =>
    intro curr h j hj
    obtain ⟨hc, _, next, hnext, hrest⟩ := (is_chain_cons fat curr c rest).1 h
    rcases List.mem_cons.1 hj with hjc | hjr
    · subst hjc; subst hc
      by_contra hlt
      rw [List.getElem?_eq_none (by omega)] at hnext
      cases hnext
    · exact ih next hrest j hjr

theorem zero_entries_length (chain : List Nat) :
    ∀ fat : List Nat, (zero_entries fat chain).length = fat.length := by
  induction chain with
  | nil => intro fat; rfl
  | cons c rest ih => intro fat; simp [zero_entries, List.foldl] at *; rw [ih]; simp

theorem zero_entries_not_mem (chain : List Nat) :
    ∀ (fat : List Nat) (j : Nat), j ∉ chain → (zero_entries fat chain)[j]? = fat[j]? := by
  induction chain with
  | nil => intro fat j _; rfl
  | cons c rest ih =>
    intro fat j hj
    have hc : c ≠ j := fun h => hj (by simp [h])
    have hr : j ∉ rest := fun h => hj (by simp [h])
    have := ih (fat.set c 0) j hr
    simp only [zero_entries, List.foldl] at *
    rw [this, List.getElem?_set_ne hc]

theorem zero_entries_mem (chain : List Nat) :
    ∀ (fat : List Nat) (j : Nat), j ∈ chain → j < fat.length →
      (zero_entries fat chain)[j]? = some 0 := by
  induction chain with
  | nil => intro fat j hj; simp at hj
  | cons c rest ih =>
    intro fat j hj hlt
    by_cases hr : j ∈ rest
    · have := ih (fat.set c 0) j hr (by simpa using hlt)
      simpa [zero_entries, List.foldl] using this
    · have hjc : j = c := by
        rcases List.mem_cons.1 hj with h | h
        · exact h
        · exact absurd h hr
      subst hjc
      have := zero_entries_not_mem rest (fat.set j 0) j hr
      simp only [zero_entries, List.foldl] at *
      rw [this, List.getElem?_set_self hlt]

theorem free_chain_eoc (fuel : Nat) (fat : List Nat) :
    free_chain fuel fat FAT_EOC = some fat := by
  cases fuel <;> simp [free_chain]

theorem free_chain_eq (chain : List Nat) :
    ∀ (fat : List Nat) (curr fuel : Nat), is_chain fat curr chain = true → chain.Nodup →
      chain.length ≤ fuel → free_chain fuel fat curr = some (zero_entries fat chain) := by
  induction chain with
  | nil =>
    intro fat curr fuel h _ _
    have hc : curr = FAT_EOC := by simpa [is_chain] using h
    subst hc
    simpa [zero_entries] using free_chain_eoc fuel fat
  | cons c rest ih =>
    intro fat curr fuel h hnd hlen
    obtain ⟨hc, hne, next, hnext, hrest⟩ := (is_chain_cons fat curr c rest).1 h
    subst hc
    obtain ⟨hnot, hnd'⟩ := List.nodup_cons.1 hnd
    cases fuel with
    | zero => simp at hlen
    | succ f =>
      have hlen' : rest.length ≤ f := by simpa using hlen
      have hrest' : is_chain (fat.set c 0) next rest = true := by
        rw [is_chain_set fat c 0 rest next hnot]; exact hrest
      have := ih (fat.set c 0) next f hrest' hnd' hlen'
      simp only [free_chain, hne, if_false, hnext, this]
      simp [zero_entries]

/-! ## Deleting a file -/

theorem getD_set_zero (l : List Nat) : (l.set 0 0).getD 0 0 = 0 := by
  cases l <;> simp

theorem no_slot_refers (table : List file_descriptor) (i : Nat)
    (hclosed : ∀ s ∈ table, s.inUse = false → s.file_rdir_index = -1)
    (hfree : ∀ s ∈ table, s.inUse = true → s.file_rdir_index ≠ (i : Int)) :
    table.any (fun s => s.file_rdir_index == (i : Int)) = false := by
  rw [List.any_eq_false]
  intro s hs
  cases hu : s.inUse with
  | true => simpa using hfree s hs hu
  | false =>
    have := hclosed s hs hu
    simp only [this, beq_iff_eq]
    omega

/-- The freeing path of `fs_delete`, from its own lookup: when the lookup loop
stops at slot `i`, the closed descriptor slots hold index -1, no slot in use
refers to `i` and the slot's first block starts the well-formed FAT chain
`chain`, the call returns 0, zeroes exactly the FAT entries of the chain and
resets slot `i`. -/
theorem fs_delete_frees_chain_of_lookup (fuel : Nat) (st : FS) (name fat chain : List Nat)
    (i : Nat)
    (e : root_directory)
    (hfat : st.FAT = some fat)
    (hlen : strlen name ≤ 15)
    (hfind : find_file name st.Root_Directory 0 = some i)
    (he : st.Root_Directory[i]? = some e)
    (hclosed : ∀ s ∈ st.Open_FD_Table, s.inUse = false → s.file_rdir_index = -1)
    (hfree : ∀ s ∈ st.Open_FD_Table, s.inUse = true → s.file_rdir_index ≠ (i : Int))
    (hchain : is_chain fat e.index_first_data_block chain = true)
    (hnodup : chain.Nodup)
    (hfuel : chain.length ≤ fuel) :
    ∃ st' fat' e',
      fs_delete fuel st (some name) = some (0, st') ∧
      st'.FAT = some fat' ∧ fat'.length = fat.length ∧
      (∀ j ∈ chain, fat'[j]? = some 0) ∧
      (∀ j, j ∉ chain → fat'[j]? = fat[j]?) ∧
      st'.Root_Directory[i]? = some e' ∧
      e'.filename.getD 0 0 = 0 ∧ e'.size_of_file = 0 ∧ e'.index_first_data_block = FAT_EOC ∧
      (∀ k, k ≠ i → st'.Root_Directory[k]? = st.Root_Directory[k]?) ∧
      st'.Open_FD_Table = st.Open_FD_Table ∧ st'.disk = st.disk := by
  have hi : i < st.Root_Directory.length := by
    by_contra h
    rw [List.getElem?_eq_none (by omega)] at he
    cases he
  have hany := no_slot_refers st.Open_FD_Table i hclosed hfree
  have hfree_chain := free_chain_eq chain fat e.index_first_data_block fuel hchain hnodup hfuel
  have hlen' : ¬ strlen name > FS_FILENAME_LEN - 1 := by
    simp only [FS_FILENAME_LEN]; omega
  let e1 : root_directory :=
    { e with filename := e.filename.set 0 0, index_first_data_block := FAT_EOC, size_of_file := 0 }
  refine ⟨{ st with Root_Directory := (st.Root_Directory.set i e1),
                    FAT := some (zero_entries fat chain) },
    zero_entries fat chain, e1, ?_, rfl, zero_entries_length chain fat, ?_, ?_, ?_, ?_,
    rfl, rfl, ?_, rfl, rfl⟩
  · simp only [fs_delete, hfat, hlen', if_false, hfind, he, hany, hfree_chain]
    rfl
  · intro j hj
    exact zero_entries_mem chain fat j hj (is_chain_lt fat chain _ hchain j hj)
  · intro j hj
    exact zero_entries_not_mem chain fat j hj
  · simp [List.getElem?_set_self hi]
  · exact getD_set_zero e.filename
  · intro k hk
    simp [List.getElem?_set_ne (Ne.symm hk)]

/-! ## Uniqueness of file names -/

theorem strcmp0_iff (a : List Nat) : ∀ b : List Nat, strcmp0 a b = true ↔ cstr a = cstr b := by
  induction a with
  | nil =>
    intro b
    cases b with
    | nil => simp [strcmp0, cstr]
    | cons y ys =>
      by_cases hy : y = 0
      · simp [strcmp0, cstr, hy]
      · simp [strcmp0, cstr, hy]
  | cons x xs ih =>
    intro b
    cases b with
    | nil =>
      by_cases hx : x = 0
      · simp [strcmp0, cstr, hx]
      · simp [strcmp0, cstr, hx]
    | cons y ys =>
      by_cases hx : x = 0
      · by_cases hy : y = 0
        · simp [strcmp0, cstr, hx, hy]
        · have hy' : ¬ 0 = y := fun h => hy h.symm
          simp [strcmp0, cstr, hx, hy, hy']
      · by_cases hy : y = 0
        · simp [strcmp0, cstr, hx, hy]
        · simp [strcmp0, cstr, hx, hy, ih ys]

theorem cstr_append_zero (s rest : List Nat) : cstr (cstr s ++ 0 :: rest) = cstr s := by
  induction s with
  | nil => simp [cstr]
  | cons c cs ih =>
    by_cases hc : c = 0
    · simp [cstr, hc]
    · simp [cstr, hc, ih]

theorem cstr_strcpy (dst src : List Nat) : cstr (strcpy dst src) = cstr src := by
  simp [strcpy, cstr_append_zero]

theorem not_same_name_symm (a b : root_directory) (h : ¬ same_name a b) : ¬ same_name b a := by
  intro hba
  exact h ⟨hba.2.1, hba.1, hba.2.2.symm⟩

theorem pairwise_replace (l1 l2 : List root_directory) (a v : root_directory)
    (h : names_unique (l1 ++ a :: l2))
    (h1 : ∀ x ∈ l1, ¬ same_name x v) (h2 : ∀ y ∈ l2, ¬ same_name y v) :
    names_unique (l1 ++ v :: l2) := by
  unfold names_unique at *
  rw [List.pairwise_append] at *
  obtain ⟨hl1, hl2, hx⟩ := h
  rw [List.pairwise_cons] at *
  refine ⟨hl1, ⟨fun y hy => not_same_name_symm _ _ (h2 y hy), hl2.2⟩, ?_⟩
  intro x hx1 y hy
  rcases List.mem_cons.1 hy with hyv | hy2
  · subst hyv; exact h1 x hx1
  · exact hx x hx1 y (List.mem_cons_of_mem _ hy2)

theorem names_unique_set (dir : List root_directory) (k : Nat) (v : root_directory)
    (h : names_unique dir) (hv : ∀ x ∈ dir, ¬ same_name x v) :
    names_unique (dir.set k v) := by
  by_cases hk : k < dir.length
  · have hsplit : dir = dir.take k ++ dir[k] :: dir.drop (k + 1) := by
      rw [← List.drop_eq_getElem_cons hk, List.take_append_drop]
    rw [List.set_eq_take_append_cons_drop, if_pos hk]
    rw [hsplit] at h
    refine pairwise_replace _ _ _ v h ?_ ?_
    · intro x hx; exact hv x (List.mem_of_mem_take hx)
    · intro y hy; exact hv y (List.mem_of_mem_drop hy)
  · rw [List.set_eq_of_length_le (by omega)]; exact h

theorem names_unique_modify (dir : List root_directory) (k : Nat)
    (f : root_directory → root_directory)
    (h : names_unique dir) (hv : ∀ x ∈ dir, ∀ y ∈ dir, ¬ same_name x (f y)) :
    names_unique (dir.modify f k) := by
  by_cases hk : k < dir.length
  · rw [List.modify_eq_set_get f hk]
    exact names_unique_set dir k _ h (fun x hx => hv x hx _ (List.get_mem _ _ _))
  · rw [List.modify_eq_self (by omega)]; exact h

theorem create_scan_exist (name : List Nat) :
    ∀ (dir : List root_directory) (i : Nat) (fe : Bool) (ei : Nat),
      (create_scan name dir i fe ei).2.2 = false → ∀ e ∈ dir, strcmp0 e.filename name = false := by
  intro dir
  induction dir with
  | nil => intro i fe ei _ e he; simp at he
  | cons d rest ih =>
    intro i fe ei h e he
    cases hd : strcmp0 d.filename name with
    | true => simp [create_scan, hd] at h
    | false =>
      simp only [create_scan, hd] at h
      rcases List.mem_cons.1 he with hed | her
      · subst hed; exact hd
      · exact ih _ _ _ h e her

theorem fs_create_dir (st : FS) (filename : Option (List Nat)) :
    (fs_create st filename).2.Root_Directory = st.Root_Directory ∨
    ∃ name k, (∀ e ∈ st.Root_Directory, strcmp0 e.filename name = false) ∧
      (fs_create st filename).2.Root_Directory = st.Root_Directory.modify
        (fun e => { e with filename := strcpy e.filename name
                           size_of_file := 0
                           index_first_data_block := FAT_EOC }) k := by
  unfold fs_create
  cases hfat : st.FAT with
  | none => left; rfl
  | some fat =>
    cases filename with
    | none => left; rfl
    | some name =>
      simp only
      split
      · left; rfl
      · split
        · left; rfl
        · rename_i hcond
          right
          refine ⟨name, _, ?_, rfl⟩
          apply create_scan_exist name st.Root_Directory 0 false 0
          simp only [Bool.or_eq_true, not_or] at hcond
          simpa using hcond.2

theorem fs_delete_dir (fuel : Nat) (st : FS) (filename : Option (List Nat)) (r : Int) (st' : FS)
    (h : fs_delete fuel st filename = some (r, st')) :
    st'.Root_Directory = st.Root_Directory ∨
    ∃ (i : Nat) (e : root_directory), st'.Root_Directory = st.Root_Directory.set i
      { e with filename := e.filename.set 0 0
               index_first_data_block := FAT_EOC
               size_of_file := 0 } := by
  unfold fs_delete at h
  cases hfat : st.FAT with
  | none =>
    rw [hfat] at h
    simp only [Option.some.injEq, Prod.mk.injEq] at h
    left; exact (congrArg FS.Root_Directory h.2).symm
  | some fat =>
    cases filename with
    | none =>
      rw [hfat] at h
      simp only [Option.some.injEq, Prod.mk.injEq] at h
      left; exact (congrArg FS.Root_Directory h.2).symm
    | some name =>
      rw [hfat] at h
      simp only at h
      split at h
      · simp only [Option.some.injEq, Prod.mk.injEq] at h
        left; exact (congrArg FS.Root_Directory h.2).symm
      · cases hfind : find_file name st.Root_Directory 0 with
        | none =>
          rw [hfind] at h
          simp only [Option.some.injEq, Prod.mk.injEq] at h
          left; exact (congrArg FS.Root_Directory h.2).symm
        | some rdir_index =>
          rw [hfind] at h
          simp only at h
          cases he : st.Root_Directory[rdir_index]? with
          | none => rw [he] at h; cases h
          | some e =>
            rw [he] at h
            simp only at h
            split at h
            · simp only [Option.some.injEq, Prod.mk.injEq] at h
              right; exact ⟨rdir_index, e, (congrArg FS.Root_Directory h.2).symm⟩
            · cases hfc : free_chain fuel fat e.index_first_data_block with
              | none => rw [hfc] at h; cases h
              | some fat' =>
                rw [hfc] at h
                simp only [Option.some.injEq, Prod.mk.injEq] at h
                right; exact ⟨rdir_index, e, (congrArg FS.Root_Directory h.2).symm⟩

/-- C9: if no two non-empty slots of the root directory hold the same
NUL-terminated name, the same is true of the directory `fs_create` leaves, for
every argument and whether it returns 0 or -1, and of the directory `fs_delete`
leaves, for every argument, every fuel and every result of the call. -/
theorem C9_names_stay_unique (st : FS) (filename : Option (List Nat))
    (h : names_unique st.Root_Directory) :
    names_unique (fs_create st filename).2.Root_Directory ∧
    ∀ (fuel : Nat) (r : Int) (st' : FS), fs_delete fuel st filename = some (r, st') →
      names_unique st'.Root_Directory := by
  constructor
  · rcases fs_create_dir st filename with hsame | ⟨name, k, hno, hmod⟩
    · rw [hsame]; exact h
    · rw [hmod]
      apply names_unique_modify _ _ _ h
      intro x hx y _ hsn
      have hx' := hno x hx
      have : cstr x.filename = cstr name := by
        rw [hsn.2.2]; exact cstr_strcpy _ _
      rw [← strcmp0_iff] at this
      rw [this] at hx'
      cases hx'
  · intro fuel r st' hdel
    rcases fs_delete_dir fuel st filename r st' hdel with hsame | ⟨i, e, hset⟩
    · rw [hsame]; exact h
    · rw [hset]
      apply names_unique_set _ _ _ h
      intro x _ hsn
      exact hsn.2.1 (getD_set_zero e.filename)

/-- The freeing path at a concrete state: in `stateAB` the file `"a"` occupies the
chain `[1, 2]` and only `"b"` is open; `fs_delete("a")` with fuel 2 returns 0 and
frees both blocks. -/
theorem fs_delete_frees_chain_of_lookup_witness :
    ∃ st' fat' e',
      fs_delete 2 stateAB (some fileA) = some (0, st') ∧
      st'.FAT = some fat' ∧ fat'.length = 4 ∧
      (∀ j ∈ [1, 2], fat'[j]? = some 0) ∧
      (∀ j, j ∉ [1, 2] → fat'[j]? = [FAT_EOC, 2, FAT_EOC, 0][j]?) ∧
      st'.Root_Directory[0]? = some e' ∧
      e'.filename.getD 0 0 = 0 ∧ e'.size_of_file = 0 ∧ e'.index_first_data_block = FAT_EOC ∧
      (∀ k, k ≠ 0 → st'.Root_Directory[k]? = stateAB.Root_Directory[k]?) ∧
      st'.Open_FD_Table = stateAB.Open_FD_Table ∧ st'.disk = stateAB.disk :=
  fs_delete_frees_chain_of_lookup 2 stateAB fileA [FAT_EOC, 2, FAT_EOC, 0] [1, 2] 0
    (entryOf fileA 5000 1)
    rfl (by decide!) rfl rfl (by decide!) (by decide!) rfl (by decide!) (by decide!)

/-- C9 at a concrete state: the names of `stateAB` are unique; they stay unique
when `fs_create("c")` returns 0, when `fs_create("a")` returns -1, and when
`fs_delete("a")` returns 0. -/
theorem C9_names_stay_unique_witness :
    names_unique stateAB.Root_Directory ∧
    ((fs_create stateAB (some fileC)).1 = 0 ∧
      names_unique (fs_create stateAB (some fileC)).2.Root_Directory) ∧
    ((fs_create stateAB (some fileA)).1 = -1 ∧
      names_unique (fs_create stateAB (some fileA)).2.Root_Directory) ∧
    ∃ st', fs_delete 2 stateAB (some fileA) = some (0, st') ∧
      names_unique st'.Root_Directory := by
  have hu : names_unique stateAB.Root_Directory := by decide!
  refine ⟨hu, ⟨by decide!, (C9_names_stay_unique stateAB (some fileC) hu).1⟩,
    ⟨by decide!, (C9_names_stay_unique stateAB (some fileA) hu).1⟩, ?_⟩
  have h1 : (fs_delete 2 stateAB (some fileA)).map (fun p => p.1) = some 0 := by decide!
  cases hd : fs_delete 2 stateAB (some fileA) with
  | none => rw [hd] at h1; cases h1
  | some p =>
    obtain ⟨r, st'⟩ := p
    rw [hd] at h1
    simp only [Option.map_some', Option.some.injEq] at h1
    subst h1
    exact ⟨st', rfl, (C9_names_stay_unique stateAB (some fileA) hu).2 2 _ st' hd⟩

/-! ## General form of two divergences -/

theorem set_same (l : List file_descriptor) (i : Nat) (s : file_descriptor)
    (h : l[i]? = some s) : l.set i s = l := by
  apply List.ext_getElem?
  intro j
  by_cases hj : i = j
  · subst hj
    rw [List.getElem?_set_self', h]
    rfl
  · rw [List.getElem?_set_ne hj]

/-- A delete of an open file is refused only after the slot has been cleared: when
`name` is found in slot `i` and some slot of the descriptor table refers to `i`,
`fs_delete` returns -1 and the state it leaves has slot `i` reset (first name
byte 0, first block `FAT_EOC`, size 0), for every fuel. -/
theorem busy_delete_clears_slot (fuel : Nat) (st : FS) (name fat : List Nat) (i : Nat)
    (e : root_directory)
    (hfat : st.FAT = some fat)
    (hlen : strlen name ≤ 15)
    (hfind : find_file name st.Root_Directory 0 = some i)
    (he : st.Root_Directory[i]? = some e)
    (hbusy : ∃ s ∈ st.Open_FD_Table, s.file_rdir_index = (i : Int)) :
    fs_delete fuel st (some name) = some (-1,
      { st with Root_Directory := (st.Root_Directory.set i
          { e with filename := e.filename.set 0 0
                   index_first_data_block := FAT_EOC
                   size_of_file := 0 }) }) := by
  have hlen' : ¬ strlen name > FS_FILENAME_LEN - 1 := by
    simp only [FS_FILENAME_LEN]; omega
  have hany : st.Open_FD_Table.any (fun s => s.file_rdir_index == (i : Int)) = true := by
    rw [List.any_eq_true]
    obtain ⟨s, hs, hsi⟩ := hbusy
    exact ⟨s, hs, by simp [hsi]⟩
  simp only [fs_delete, hfat, hlen', if_false, hfind, he, hany, if_true]

/-- The state `stateAB` at work: descriptor 0 has `"b"` (slot 1) open, and
`fs_delete("b")` returns -1 with slot 1 reset. -/
theorem busy_delete_clears_slot_witness :
    fs_delete 0 stateAB (some fileB) = some (-1,
      { stateAB with Root_Directory := (stateAB.Root_Directory.set 1
          { entryOf fileB 0 FAT_EOC with filename := (entryOf fileB 0 FAT_EOC).filename.set 0 0
                                         index_first_data_block := FAT_EOC
                                         size_of_file := 0 }) }) :=
  busy_delete_clears_slot 0 stateAB fileB [FAT_EOC, 2, FAT_EOC, 0] 1 (entryOf fileB 0 FAT_EOC)
    rfl (by decide!) rfl rfl ⟨_, List.mem_cons_self _ _, rfl⟩

/-- A read that starts at the last byte of a file, or behind it, transfers nothing:
for a descriptor in use at an offset with `size ≤ offset + 1` (sizes and offsets
below 2^31) whose block walk succeeds, `fs_read` with `count ≠ 0` returns 0 and
leaves the caller's buffer and the state unchanged. -/
theorem read_from_last_byte_returns_zero (buffer b fat : List Nat) (st : FS) (fd : Int)
    (count curr : Nat) (s : file_descriptor) (e : root_directory)
    (hfat : st.FAT = some fat)
    (hfd : 0 ≤ fd ∧ fd ≤ 31)
    (hs : st.Open_FD_Table[fd.toNat]? = some s)
    (huse : s.inUse = true)
    (hcount : count ≠ 0)
    (he : rdirAt st.Root_Directory s.file_rdir_index = some e)
    (hcurr : data_block_offset st fd = some curr)
    (hsize : e.size_of_file < 2 ^ 31)
    (hoff : s.offset < 2 ^ 31)
    (hlast : e.size_of_file ≤ s.offset + 1) :
    fs_read buffer st fd (some b) count = some (0, some b, st) := by
  have hguard : ¬ (fd > (FS_OPEN_MAX_COUNT : Int) - 1 ∨ fd < 0) := by
    simp only [FS_OPEN_MAX_COUNT]; omega
  have hguard' : ¬ (st.FAT = none ∨ fd > (FS_OPEN_MAX_COUNT : Int) - 1 ∨ fd < 0) := by
    simp only [hfat, FS_OPEN_MAX_COUNT]; simp; omega
  have hstat : fs_stat st fd = some (toInt32 e.size_of_file) := by
    simp only [fs_stat, hguard', if_false, hs, huse, he]; rfl
  have h1 : toInt32 e.size_of_file = (e.size_of_file : Int) := by
    unfold toInt32
    have : e.size_of_file % 2 ^ 32 = e.size_of_file := Nat.mod_eq_of_lt (by omega)
    rw [this, if_pos hsize]
  have h2 : toInt32 s.offset = (s.offset : Int) := by
    unfold toInt32
    have : s.offset % 2 ^ 32 = s.offset := Nat.mod_eq_of_lt (by omega)
    rw [this, if_pos hoff]
  have hacc : ¬ (toInt32 s.offset < toInt32 e.size_of_file - 1) := by
    rw [h1, h2]; omega
  have hadd : addSizeT s.offset 0 = s.offset := by
    unfold addSizeT
    exact Nat.mod_eq_of_lt (by omega)
  have hs' : ({ inUse := true, file_rdir_index := s.file_rdir_index, offset := s.offset } :
      file_descriptor) = s := by
    cases s; simp only at huse; subst huse; rfl
  have hzero : toInt32 0 = 0 := by decide
  simp only [fs_read, hfat, hguard, if_false, hs, huse, Bool.not_true, Bool.false_eq_true,
    hcount, hcurr, hstat, if_neg hacc, Int.toNat_zero, read_loop, hadd, hzero]
  rw [hs', set_same _ _ _ hs, ← hfat]

/-- In `stateA_last_byte` descriptor 0 stands at offset 4999 of the 5000 bytes of
`"a"`: a read of 10 bytes returns 0 and changes nothing. -/
theorem read_from_last_byte_returns_zero_witness :
    fs_read zeroBlock stateA_last_byte 0 (some (List.replicate 10 0)) 10
      = some (0, some (List.replicate 10 0), stateA_last_byte) :=
  read_from_last_byte_returns_zero zeroBlock (List.replicate 10 0) [FAT_EOC, 2, FAT_EOC, 0]
    stateA_last_byte 0 10 2 { inUse := true, file_rdir_index := 0, offset := 4999 }
    (entryOf fileA 5000 1)
    rfl (by decide) rfl rfl (by decide) rfl rfl (by decide) (by decide) (by decide)

/-! ## Reading at the end of a file -/

/-- C4, evaluated: after scenario S1 (`"hello"` written to `"a"`) and `lseek(0, 4)`
returned 0, descriptor 0 is at offset 4 of a file of size 5, and
`read(0, buf, 1)` returns 0 and leaves `buf` as it was, instead of returning 1
and delivering the last byte `'o'`. -/
theorem C4_read_of_last_byte_returns_zero :
    (scenario_hello.bind (fun s => expect 0 (fs_lseek s 0 4))).bind
      (fun s => (fs_read zeroBlock s 0 (some [0]) 1).map
        (fun r => (fs_stat s 0, offset_of s 0, r.1, r.2.1)))
      = some (some 5, some 4, 0, some [0]) := by
  decide!

/-- C3, evaluated: after scenario S1 and `lseek(0, 0)`, descriptor 0 is at offset 0
of a file of size 5; `read(0, buf, 100)` returns 100, more than the 5 bytes
between the offset and the end of the file, and leaves the offset at 100, beyond
the file size. -/
theorem C3_read_returns_more_than_the_file_holds :
    (scenario_hello.bind (fun s => expect 0 (fs_lseek s 0 0))).bind
      (fun s => (fs_read zeroBlock s 0 (some (List.replicate 100 0)) 100).map
        (fun r => (fs_stat s 0, offset_of s 0, r.1, offset_of r.2.2 0)))
      = some (some 5, some 0, 100, some 100) := by
  decide!

/-- C1, evaluated: on the freshly formatted `image4` the round trip delivers
`"hello"` (scenario S6), but for the one-byte string `"x"` written to `"a"` the
final `read(0, buf, 1)` returns 0 and leaves `buf` untouched. -/
theorem C1_round_trip_loses_one_byte_file :
    persistence_read fileA hello = some (5, some hello) ∧
    persistence_read fileA [120] = some (0, some [0]) := by
  decide!

/-- C2, evaluated: in scenario S3 descriptor 0 is at offset 0 of the empty file
`"c"`; `write(0, Z, 16384)` stops when the FAT is full and returns 8192, yet the
offset of the descriptor is still 0 and the file size is still 0. -/
theorem C2_truncated_write_keeps_offset_and_size :
    scenario_open_c.map (fun s => (fs_stat s 0, offset_of s 0)) = some (some 0, some 0) ∧
    scenario_fill.map (fun p => (p.1, fs_stat p.2 0, offset_of p.2 0))
      = some (8192, some 0, some 0) := by
  decide!

/-- C8, evaluated: before the write of scenario S3 the chain-length invariant
holds; after `write(0, Z, 16384)` returned 8192 the slot of `"c"` has size 0 and
first block 1, its chain has 3 blocks, and the invariant is broken. -/
theorem C8_truncated_write_breaks_chain_length :
    scenario_open_c.map chain_invariant = some true ∧
    scenario_fill.map (fun p => (p.1, chain_invariant p.2)) = some (8192, false) ∧
    scenario_fill.map (fun p => slot_summary p.2 0) = some (some (99, 0, 1)) ∧
    scenario_fill.map (fun p => p.2.FAT) = some (some [FAT_EOC, 2, 3, FAT_EOC]) ∧
    chain_length [FAT_EOC, 2, 3, FAT_EOC] 4 1 = some 3 := by
  decide!

/-- C5, evaluated: after scenario S1 slot 0 holds `"a"` with size 5 and first
block 1 and descriptor 0 refers to it; `delete("a")` returns -1 but has already
cleared the slot (first name byte 0, size 0, first block `FAT_EOC`), and after
`close(0)` returned 0 a second `delete("a")` returns -1 again, not 0. -/
theorem C5_busy_delete_clears_the_slot :
    scenario_hello.map (fun s => slot_summary s 0) = some (some (97, 5, 1)) ∧
    (scenario_hello.bind (fun s => expect (-1) (fs_delete 4 s (some fileA)))).map
      (fun s => slot_summary s 0) = some (some (0, 0, FAT_EOC)) ∧
    (((scenario_hello.bind (fun s => expect (-1) (fs_delete 4 s (some fileA)))).bind
      (fun s => expect 0 (fs_close s 0))).bind
      (fun s => fs_delete 4 s (some fileA))).map (fun p => p.1) = some (-1) := by
  decide!

/-- C7, evaluated: `image4` mounts with `FAT[0] = 0xFFFF`; `delete("")` then
matches the first empty slot, whose first-block field is 0, returns 0 and sets
`FAT[0]` to 0, after which `find_empty_FAT` hands out index 0. -/
theorem C7_delete_of_empty_name_clears_fat_zero :
    mounted4.map (fun s => s.FAT) = some (some [FAT_EOC, 0, 0, 0]) ∧
    (mounted4.bind (fun s => expect 0 (fs_delete 4 s (some [])))).map
      (fun s => (s.FAT, s.FAT.bind (fun fat => find_empty_FAT s.Superblock fat)))
      = some (some [0, 0, 0, 0], some 0) := by
  decide!

/-- C10, evaluated: `image4_full` has 4 data blocks and the FAT
`[0xFFFF, 2, 3, 0xFFFF]`; `mount` and `umount` both return 0, but the FAT block
written back holds `[0xFFFF, 2, 0, 0]`, so the image is not the one that was
mounted. -/
theorem C10_mount_umount_changes_the_fat :
    image4_full.blocks[1]?.map (fun b => b.take 8) = some [255, 255, 2, 0, 3, 0, 255, 255] ∧
    ((expect 0 (fs_mount [] (initFS image4_full) (some diskName))).bind
      (fun s => expect 0 (fs_umount s))).map
      (fun s => (s.disk.blocks[1]?.map (fun b => b.take 8),
        decide (s.disk.blocks = image4_full.blocks)))
      = some (some [255, 255, 2, 0, 0, 0, 0, 0], false) := by
  decide!

/-! ## The span calculation -/

theorem toInt32_small (n : Nat) (h : n < 2 ^ 31) : toInt32 n = (n : Int) := by
  unfold toInt32
  have : n % 2 ^ 32 = n := Nat.mod_eq_of_lt (by omega)
  rw [this, if_pos h]

/-- C20: for `count ≥ 1` with `count + 4096 < 2^31` and every offset `O`,
`num_data_block_access count O`, computed with the wrap-around of `size_t` and the
conversion to `int`, is `1 + ⌈(count − min(count, 4096 − o)) / 4096⌉` with
`o = O mod 4096`; in particular it is 1 whenever `count + o ≤ 4096`, where
`count − 4096 + o` wraps around. -/
theorem C20_span_calculation (count O : Nat) (hc : 1 ≤ count) (hb : count + 4096 < 2 ^ 31) :
    num_data_block_access count O =
      1 + (((count - Nat.min count (4096 - O % 4096) + 4095) / 4096 : Nat) : Int) ∧
    (count + O % 4096 ≤ 4096 → num_data_block_access count O = 1) := by
  have ho : (if O > BLOCK_SIZE - 1 then O % BLOCK_SIZE else O) = O % 4096 := by
    simp only [BLOCK_SIZE]
    split
    · rfl
    · rw [Nat.mod_eq_of_lt (by omega)]
  have hlt : O % 4096 < 4096 := Nat.mod_lt _ (by norm_num)
  have key : num_data_block_access count O =
      1 + (((count - Nat.min count (4096 - O % 4096) + 4095) / 4096 : Nat) : Int) := by
    unfold num_data_block_access
    simp only [ho]
    generalize O % 4096 = o at hlt
    by_cases hge : 4096 ≤ count + o
    · have hr : addSizeT (subSizeT count BLOCK_SIZE) o = count + o - 4096 := by
        simp only [addSizeT, subSizeT, BLOCK_SIZE]; omega
      rw [hr]
      have hq : addSizeT 1 ((count + o - 4096) / BLOCK_SIZE) = 1 + (count + o - 4096) / 4096 := by
        simp only [addSizeT, BLOCK_SIZE]; omega
      rw [hq, toInt32_small _ (by omega)]
      have hmin : Nat.min count (4096 - o) = 4096 - o := by
        simp only [Nat.min_def]; split <;> omega
      rw [hmin]
      simp only [BLOCK_SIZE]
      split <;> omega
    · have hr : addSizeT (subSizeT count BLOCK_SIZE) o = 2 ^ 64 - 4096 + count + o := by
        simp only [addSizeT, subSizeT, BLOCK_SIZE]; omega
      rw [hr]
      have hq : addSizeT 1 ((2 ^ 64 - 4096 + count + o) / BLOCK_SIZE) = 2 ^ 52 := by
        simp only [addSizeT, BLOCK_SIZE]; omega
      rw [hq]
      have h52 : toInt32 (2 ^ 52) = 0 := by decide
      rw [h52]
      have hmin : Nat.min count (4096 - o) = count := by
        simp only [Nat.min_def]; split <;> omega
      rw [hmin]
      simp only [BLOCK_SIZE]
      split <;> omega
  refine ⟨key, ?_⟩
  intro hle
  rw [key]
  have hmin : Nat.min count (4096 - O % 4096) = count := by
    simp only [Nat.min_def]; split <;> omega
  rw [hmin]
  omega

/-- C20 at concrete requests: 5 bytes at offset 8200 (intra-block offset 8, where
`count − 4096 + o` wraps around) touch 1 block, and 5000 bytes at offset 4000
touch 3 blocks. -/
theorem C20_span_calculation_witness :
    num_data_block_access 5 8200 = 1 ∧ num_data_block_access 5000 4000 = 3 :=
  ⟨(C20_span_calculation 5 8200 (by decide) (by decide)).2 (by decide),
    (C20_span_calculation 5000 4000 (by decide) (by decide)).1.trans (by decide)⟩

/-! ## The create contract -/

theorem is_empty_slot_iff (e : root_directory) : is_empty_slot e ↔ cstr e.filename = [] := by
  unfold is_empty_slot
  cases h : e.filename with
  | nil => simp [cstr]
  | cons c cs =>
    by_cases hc : c = 0
    · simp [cstr, hc]
    · simp [cstr, hc]

theorem strlen_cstr (s : List Nat) : (cstr s).length = strlen s := by
  induction s with
  | nil => rfl
  | cons c cs ih =>
    by_cases hc : c = 0
    · simp [cstr, strlen, hc]
    · simp [cstr, strlen, hc, ih]

theorem create_scan_exist_true (name : List Nat) :
    ∀ (dir : List root_directory) (i : Nat) (fe : Bool) (ei : Nat),
      (∃ e ∈ dir, strcmp0 e.filename name = true) →
      (create_scan name dir i fe ei).2.2 = true := by
  intro dir
  induction dir with
  | nil => intro i fe ei h; obtain ⟨e, he, _⟩ := h; simp at he
  | cons d rest ih =>
    intro i fe ei h
    cases hd : strcmp0 d.filename name with
    | true => simp [create_scan, hd]
    | false =>
      simp only [create_scan, hd]
      apply ih
      obtain ⟨e, he, hs⟩ := h
      rcases List.mem_cons.1 he with hed | her
      · subst hed; rw [hd] at hs; cases hs
      · exact ⟨e, her, hs⟩

theorem create_scan_found_true (name : List Nat) :
    ∀ (dir : List root_directory) (i ei : Nat),
      (∀ e ∈ dir, strcmp0 e.filename name = false) →
      create_scan name dir i true ei = (true, ei, false) := by
  intro dir
  induction dir with
  | nil => intro i ei _; rfl
  | cons d rest ih =>
    intro i ei h
    have hd := h d (List.mem_cons_self _ _)
    simp only [create_scan, hd, Bool.not_true, Bool.and_false]
    exact ih _ _ (fun e he => h e (List.mem_cons_of_mem _ he))

theorem create_scan_none_empty (name : List Nat) :
    ∀ (dir : List root_directory) (i ei : Nat),
      (∀ e ∈ dir, ¬ is_empty_slot e) →
      (create_scan name dir i false ei).1 = false := by
  intro dir
  induction dir with
  | nil => intro i ei _; rfl
  | cons d rest ih =>
    intro i ei h
    have hd : d.filename.getD 0 0 ≠ 0 := h d (List.mem_cons_self _ _)
    have hb : (d.filename.getD 0 0 == 0) = false := by simpa using hd
    simp only [create_scan, hb, Bool.false_and]
    cases hs : strcmp0 d.filename name with
    | true => simp
    | false =>
      simp only [Bool.false_eq_true, if_false]
      exact ih _ _ (fun e he => h e (List.mem_cons_of_mem _ he))

theorem create_scan_first_empty (name : List Nat) :
    ∀ (dir : List root_directory) (i ei k : Nat) (e : root_directory),
      (∀ x ∈ dir, strcmp0 x.filename name = false) →
      lowest_empty_slot dir k e →
      create_scan name dir i false ei = (true, i + k, false) := by
  intro dir
  induction dir with
  | nil => intro i ei k e _ h; simp [lowest_empty_slot] at h
  | cons d rest ih =>
    intro i ei k e hno hlow
    obtain ⟨hk, hempty, hbefore⟩ := hlow
    have hd := hno d (List.mem_cons_self _ _)
    have hrest : ∀ x ∈ rest, strcmp0 x.filename name = false :=
      fun x hx => hno x (List.mem_cons_of_mem _ hx)
    cases k with
    | zero =>
      have hde : d = e := by simpa using hk
      subst hde
      have hb : (d.filename.getD 0 0 == 0) = true := by simpa [is_empty_slot] using hempty
      simp only [create_scan, hb, hd, Bool.not_false, Bool.and_true, if_true, Bool.false_eq_true,
        if_false]
      simpa using create_scan_found_true name rest (i + 1) i hrest
    | succ k' =>
      have hdne : ¬ is_empty_slot d := hbefore d (by simp)
      have hb : (d.filename.getD 0 0 == 0) = false := by simpa [is_empty_slot] using hdne
      simp only [create_scan, hb, hd, Bool.false_and, Bool.false_eq_true, if_false]
      have := ih (i + 1) ei k' e hrest
        ⟨by simpa using hk, hempty, fun x hx => hbefore x (by simp [hx])⟩
      rw [this]
      congr 2
      omega

theorem create_scan_empty_name (name : List Nat) (hname : cstr name = []) :
    ∀ (dir : List root_directory) (i ei : Nat),
      (create_scan name dir i false ei).1 = false ∨
        (create_scan name dir i false ei).2.2 = true := by
  intro dir
  induction dir with
  | nil => intro i ei; left; rfl
  | cons d rest ih =>
    intro i ei
    cases hs : strcmp0 d.filename name with
    | true => right; simp [create_scan, hs]
    | false =>
      have hne : ¬ is_empty_slot d := by
        intro hemp
        have : cstr d.filename = cstr name := by rw [(is_empty_slot_iff d).1 hemp, hname]
        rw [← strcmp0_iff, hs] at this
        cases this
      have hb : (d.filename.getD 0 0 == 0) = false := by simpa [is_empty_slot] using hne
      simp only [create_scan, hb, hs, Bool.false_and, Bool.false_eq_true, if_false]
      exact ih _ _

theorem modify_of_getElem? (f : root_directory → root_directory) :
    ∀ (dir : List root_directory) (k : Nat) (e : root_directory),
      dir[k]? = some e → dir.modify f k = dir.set k (f e) := by
  intro dir
  induction dir with
  | nil => intro k e h; simp at h
  | cons d rest ih =>
    intro k e h
    cases k with
    | zero =>
      have hde : d = e := by simpa using h
      subst hde
      rfl
    | succ k' =>
      have := ih k' e (by simpa using h)
      simp only [List.modify_succ_cons, List.set_cons_succ, this]

/-- C12: in a mounted state, for a name of 1 to 15 bytes that no non-empty slot
holds, with `k` the lowest empty slot, `fs_create` returns 0 and the state it
leaves differs only in slot `k`, which now holds the name (followed by NUL), size
0 and first block `FAT_EOC`; and when the name is longer than 15 bytes, or is
held by a non-empty slot, or no slot is empty, `fs_create` returns -1 and leaves
the state unchanged. -/
theorem C12_create_contract (st : FS) (name fat : List Nat) (hfat : st.FAT = some fat) :
    (∀ (k : Nat) (e : root_directory),
      1 ≤ strlen name → strlen name ≤ 15 → ¬ name_present st.Root_Directory name →
      lowest_empty_slot st.Root_Directory k e →
        fs_create st (some name) = (0, { st with Root_Directory := (st.Root_Directory.set k
          { e with filename := strcpy e.filename name
                   size_of_file := 0
                   index_first_data_block := FAT_EOC }) }) ∧
        cstr (strcpy e.filename name) = cstr name) ∧
    ((strlen name > 15 ∨ name_present st.Root_Directory name ∨
        ∀ e ∈ st.Root_Directory, ¬ is_empty_slot e) →
      fs_create st (some name) = (-1, st)) := by
  constructor
  · intro k e h1 h15 hnp hlow
    refine ⟨?_, cstr_strcpy _ _⟩
    have hlen : ¬ strlen name > FS_FILENAME_LEN - 1 := by simp only [FS_FILENAME_LEN]; omega
    have hno : ∀ x ∈ st.Root_Directory, strcmp0 x.filename name = false := by
      intro x hx
      cases hs : strcmp0 x.filename name with
      | false => rfl
      | true =>
        exfalso
        have hc := (strcmp0_iff _ _).1 hs
        apply hnp
        refine ⟨x, hx, ?_, hc⟩
        intro hemp
        have h0 : (cstr name).length = 0 := by rw [← hc, (is_empty_slot_iff x).1 hemp]; rfl
        rw [strlen_cstr] at h0
        omega
    have hscan := create_scan_first_empty name st.Root_Directory 0 0 k e hno hlow
    unfold fs_create
    simp only [hfat, if_neg hlen, hscan, Nat.zero_add]
    simp only [Bool.not_true, Bool.or_false, Bool.false_eq_true, if_false]
    rw [modify_of_getElem? _ _ k e hlow.1]
  · intro h
    unfold fs_create
    simp only [hfat]
    rcases h with h | h | h
    · have hlen : strlen name > FS_FILENAME_LEN - 1 := by simp only [FS_FILENAME_LEN]; omega
      rw [if_pos hlen]
    · split
      · rfl
      · obtain ⟨e, he, _, hc⟩ := h
        have := create_scan_exist_true name st.Root_Directory 0 false 0
          ⟨e, he, (strcmp0_iff _ _).2 hc⟩
        simp [this]
    · split
      · rfl
      · have := create_scan_none_empty name st.Root_Directory 0 0 h
        simp [this]

/-- C12 at a concrete state: in `stateAB` slot 2 is the lowest empty slot;
`fs_create("c")` returns 0 and writes only slot 2, and `fs_create("a")`, whose
name slot 0 holds, returns -1 and changes nothing. -/
theorem C12_create_contract_witness :
    fs_create stateAB (some fileC) = (0, { stateAB with Root_Directory :=
      (stateAB.Root_Directory.set 2
        { entryOf [] 0 0 with filename := strcpy (entryOf [] 0 0).filename fileC
                              size_of_file := 0
                              index_first_data_block := FAT_EOC }) }) ∧
    fs_create stateAB (some fileA) = (-1, stateAB) :=
  ⟨((C12_create_contract stateAB fileC [FAT_EOC, 2, FAT_EOC, 0] rfl).1 2 (entryOf [] 0 0)
      (by decide) (by decide) (by decide!) (by decide!)).1,
    (C12_create_contract stateAB fileA [FAT_EOC, 2, FAT_EOC, 0] rfl).2
      (Or.inr (Or.inl (by decide!)))⟩

/-- C13: `fs_create` with an empty name (a string of length 0) returns -1 and
leaves the state, and so the root directory, unchanged, in every state and
whether or not a slot is empty: the empty name compares equal to the first empty
slot, and without an empty slot there is no room. -/
theorem C13_create_rejects_empty_name (st : FS) (name : List Nat) (hname : strlen name = 0) :
    fs_create st (some name) = (-1, st) := by
  have hc : cstr name = [] := by
    apply List.eq_nil_of_length_eq_zero
    rw [strlen_cstr, hname]
  unfold fs_create
  cases hfat : st.FAT with
  | none => rfl
  | some fat =>
    simp only
    have hlen : ¬ strlen name > FS_FILENAME_LEN - 1 := by rw [hname]; simp [FS_FILENAME_LEN]
    rw [if_neg hlen]
    rcases create_scan_empty_name name hc st.Root_Directory 0 0 with h | h
    · simp [h]
    · simp [h]

/-- C13 at a concrete state: `fs_create("")` on `stateAB`, which has 126 empty
slots, returns -1 and changes nothing. -/
theorem C13_create_rejects_empty_name_witness :
    fs_create stateAB (some []) = (-1, stateAB) :=
  C13_create_rejects_empty_name stateAB [] rfl

/-! ## Opening a file -/

/-- C11, evaluated: the mounted `image4` has an empty directory, so no slot holds
`"a"`; `open("a")` nevertheless returns descriptor 0 and records slot index 128,
one past the directory, in the descriptor table, and `fs_stat(0)` then indexes
`Root_Directory` outside the array. -/
theorem C11_open_of_absent_name_succeeds :
    mounted4.map (fun s => decide (name_present s.Root_Directory fileA)) = some false ∧
    mounted4.map (fun s => ((fs_open s (some fileA)).1,
        (fs_open s (some fileA)).2.Open_FD_Table[0]?))
      = some (0, some { inUse := true, file_rdir_index := 128, offset := 0 }) ∧
    mounted4.map (fun s => fs_stat (fs_open s (some fileA)).2 0) = some none := by
  decide!

/-! ## Seeking -/

theorem toInt32_ne_neg_one (n : Nat) (h : n < 2 ^ 32 - 1) : toInt32 n ≠ -1 := by
  unfold toInt32
  have : n % 2 ^ 32 = n := Nat.mod_eq_of_lt (by omega)
  rw [this]
  split <;> omega

theorem fs_lseek_eq (st : FS) (fd : Int) (off : Nat) (fat : List Nat) (s : file_descriptor)
    (e : root_directory)
    (hfat : st.FAT = some fat)
    (hfd : 0 ≤ fd ∧ fd ≤ 31)
    (hs : st.Open_FD_Table[fd.toNat]? = some s)
    (huse : s.inUse = true)
    (he : rdirAt st.Root_Directory s.file_rdir_index = some e)
    (hsize : e.size_of_file < 2 ^ 32 - 1) :
    fs_lseek st fd off =
      if e.size_of_file < off then some (-1, st)
      else some (0, { st with Open_FD_Table := (st.Open_FD_Table.set fd.toNat
        { s with offset := off }) }) := by
  have hguard : ¬ (st.FAT = none ∨ fd > (FS_OPEN_MAX_COUNT : Int) - 1 ∨ fd < 0) := by
    simp only [hfat, FS_OPEN_MAX_COUNT]; simp; omega
  have hstat : fs_stat st fd = some (toInt32 e.size_of_file) := by
    simp only [fs_stat, hguard, if_false, hs, huse, he]; rfl
  have hne := toInt32_ne_neg_one _ hsize
  simp only [fs_lseek, hguard, if_false, hs, huse, hstat, hne, he, Bool.not_true,
    Bool.false_eq_true]

theorem fs_lseek_max_size (st : FS) (fd : Int) (off : Nat) (fat : List Nat) (s : file_descriptor)
    (e : root_directory)
    (hfat : st.FAT = some fat)
    (hfd : 0 ≤ fd ∧ fd ≤ 31)
    (hs : st.Open_FD_Table[fd.toNat]? = some s)
    (huse : s.inUse = true)
    (he : rdirAt st.Root_Directory s.file_rdir_index = some e)
    (hsize : e.size_of_file = 2 ^ 32 - 1) :
    fs_lseek st fd off = some (-1, st) := by
  have hguard : ¬ (st.FAT = none ∨ fd > (FS_OPEN_MAX_COUNT : Int) - 1 ∨ fd < 0) := by
    simp only [hfat, FS_OPEN_MAX_COUNT]; simp; omega
  have hm : toInt32 (2 ^ 32 - 1) = -1 := by decide
  have hstat : fs_stat st fd = some (-1) := by
    simp only [fs_stat, hguard, if_false, hs, huse, he, hsize, hm]; rfl
  simp only [fs_lseek, hguard, if_false, hs, huse, hstat, Bool.not_true,
    Bool.false_eq_true, if_true]

/-- C14, as amended: for a descriptor `fd` in use on a slot with size field `S`
(any 32-bit value) and every `off`. When `S` is not `0xFFFFFFFF`:
`fs_lseek(fd, off)` returns 0 and sets only that descriptor's offset to `off`
when `off ≤ S`, and returns -1 leaving the state unchanged when `off > S`;
calling it twice gives the result of calling it once; and when `off ≤ S` the
result does not depend on the offset the descriptor had before. When `S` is
`0xFFFFFFFF`: `fs_lseek(fd, off)` returns -1 and leaves the state unchanged. -/
theorem C14_lseek_contract (st : FS) (fd : Int) (off : Nat) (fat : List Nat)
    (s : file_descriptor) (e : root_directory)
    (hfat : st.FAT = some fat)
    (hfd : 0 ≤ fd ∧ fd ≤ 31)
    (hs : st.Open_FD_Table[fd.toNat]? = some s)
    (huse : s.inUse = true)
    (he : rdirAt st.Root_Directory s.file_rdir_index = some e)
    (hsize : e.size_of_file < 2 ^ 32) :
    (e.size_of_file ≠ 2 ^ 32 - 1 →
      (off ≤ e.size_of_file →
        fs_lseek st fd off = some (0, { st with Open_FD_Table := (st.Open_FD_Table.set fd.toNat
          { s with offset := off }) })) ∧
      (e.size_of_file < off → fs_lseek st fd off = some (-1, st)) ∧
      ((fs_lseek st fd off).bind (fun p => fs_lseek p.2 fd off) = fs_lseek st fd off) ∧
      (off ≤ e.size_of_file → ∀ o' : Nat,
        fs_lseek { st with Open_FD_Table := (st.Open_FD_Table.set fd.toNat
          { s with offset := o' }) } fd off = fs_lseek st fd off)) ∧
    (e.size_of_file = 2 ^ 32 - 1 → fs_lseek st fd off = some (-1, st)) := by
  refine ⟨fun hne => ?_, fun heq => fs_lseek_max_size st fd off fat s e hfat hfd hs huse he heq⟩
  have hsize : e.size_of_file < 2 ^ 32 - 1 := by omega
  have hlt : fd.toNat < st.Open_FD_Table.length := by
    by_contra h
    rw [List.getElem?_eq_none (by omega)] at hs
    cases hs
  have hmain := fs_lseek_eq st fd off fat s e hfat hfd hs huse he hsize
  have hmoved : ∀ o' : Nat,
      fs_lseek { st with Open_FD_Table := (st.Open_FD_Table.set fd.toNat
        { s with offset := o' }) } fd off =
      if e.size_of_file < off then some (-1, { st with Open_FD_Table :=
        (st.Open_FD_Table.set fd.toNat { s with offset := o' }) })
      else some (0, { st with Open_FD_Table := (st.Open_FD_Table.set fd.toNat
        { s with offset := off }) }) := by
    intro o'
    have := fs_lseek_eq { st with Open_FD_Table := (st.Open_FD_Table.set fd.toNat
        { s with offset := o' }) } fd off fat { s with offset := o' } e hfat hfd
      (by simp [List.getElem?_set_self hlt]) huse he hsize
    rw [this]
    simp only [List.set_set]
  refine ⟨?_, ?_, ?_, ?_⟩
  · intro h
    rw [hmain, if_neg (by omega)]
  · intro h
    rw [hmain, if_pos h]
  · rw [hmain]
    by_cases h : e.size_of_file < off
    · simp only [if_pos h, Option.some_bind, hmain]
    · simp only [if_neg h, Option.some_bind]
      rw [hmoved off, if_neg h]
  · intro h o'
    have hn : ¬ e.size_of_file < off := by omega
    rw [hmoved o', hmain, if_neg hn, if_neg hn]

/-- C14 at concrete states: in `state_three_blocks 8192` descriptor 0 is open on
`"a"` of 12288 bytes; `lseek(0, 100)` returns 0 and moves only that offset, and
`lseek(0, 12289)` returns -1 and changes nothing. In `state_max_size` descriptor
0 is open on a slot of size `0xFFFFFFFF`, and `lseek(0, 7)` returns -1 and
changes nothing. -/
theorem C14_lseek_contract_witness :
    fs_lseek (state_three_blocks 8192) 0 100 = some (0, state_three_blocks 100) ∧
    fs_lseek (state_three_blocks 8192) 0 12289 = some (-1, state_three_blocks 8192) ∧
    fs_lseek state_max_size 0 7 = some (-1, state_max_size) :=
  ⟨(((C14_lseek_contract (state_three_blocks 8192) 0 100 [FAT_EOC, 2, 3, FAT_EOC]
      { inUse := true, file_rdir_index := 0, offset := 8192 } (entryOf fileA 12288 1)
      rfl (by decide) rfl rfl rfl (by decide)).1 (by decide)).1 (by decide)).trans rfl,
    ((C14_lseek_contract (state_three_blocks 8192) 0 12289 [FAT_EOC, 2, 3, FAT_EOC]
      { inUse := true, file_rdir_index := 0, offset := 8192 } (entryOf fileA 12288 1)
      rfl (by decide) rfl rfl rfl (by decide)).1 (by decide)).2.1 (by decide),
    (C14_lseek_contract state_max_size 0 7 [FAT_EOC, 2, FAT_EOC, 0]
      { inUse := true, file_rdir_index := 1, offset := 0 } (entryOf fileB 4294967295 FAT_EOC)
      rfl (by decide) rfl rfl rfl (by decide)).2 (by decide)⟩

/-- C14 as stated fails in two places. For the size `0xFFFFFFFF`: in
`state_max_size` descriptor 0 is in use on slot 1, whose size field is
4294967295, and `lseek(0, 0)`, with `0 ≤ S`, returns -1, because `fs_stat`
converts the size to the `int` -1 that `fs_lseek` reads as an error. For
`x > S`: the states `state_three_blocks 8192` and `state_three_blocks 100` differ
only in the offset descriptor 0 had before, the file has 12288 bytes, and
`lseek(0, 12289)` returns -1 in both and leaves each as it was, so the state
after the call does depend on the previous offset, 8192 in one and 100 in the
other. -/
theorem C14_lseek_fails_as_stated :
    (state_max_size.Open_FD_Table[0]?
        = some { inUse := true, file_rdir_index := 1, offset := 0 } ∧
      slot_summary state_max_size 1 = some (98, 4294967295, FAT_EOC) ∧
      fs_stat state_max_size 0 = some (-1) ∧
      fs_lseek state_max_size 0 0 = some (-1, state_max_size)) ∧
    (fs_stat (state_three_blocks 8192) 0 = some 12288 ∧
      fs_stat (state_three_blocks 100) 0 = some 12288 ∧
      fs_lseek (state_three_blocks 8192) 0 12289 = some (-1, state_three_blocks 8192) ∧
      fs_lseek (state_three_blocks 100) 0 12289 = some (-1, state_three_blocks 100) ∧
      offset_of (state_three_blocks 8192) 0 = some 8192 ∧
      offset_of (state_three_blocks 100) 0 = some 100 ∧
      state_three_blocks 8192 ≠ state_three_blocks 100) := by
  decide!

/-! ## The frame of a read -/

theorem memcpy_length (dst : List Nat) (doff : Nat) (src : List Nat) (soff n : Nat) (m : List Nat)
    (h : memcpy dst doff src soff n = some m) :
    doff + n ≤ dst.length ∧ m.length = dst.length := by
  unfold memcpy at h
  split at h
  · rename_i hb
    simp only [Option.some.injEq] at h
    subst h
    refine ⟨hb.1, ?_⟩
    simp only [List.length_append, List.length_take, List.length_drop]
    omega
  · cases h

theorem read_copy_bound (buffer : List Nat) (count co : Nat) (access i : Int)
    (buf : List Nat) (cr : Nat) (buf2 : List Nat) (cr2 : Nat)
    (h : read_copy buffer count co access i buf cr = some (buf2, cr2)) :
    buf2.length = buf.length ∧ cr2 ≤ buf.length := by
  unfold read_copy at h
  split at h
  · cases hm : memcpy buf cr buffer co
      (toSizeT (min (toInt32 count) (toInt32 (subSizeT BLOCK_SIZE co)))) with
    | none => simp [hm] at h
    | some m =>
      simp only [hm, Option.map_some', Option.some.injEq, Prod.mk.injEq] at h
      obtain ⟨h1, h2⟩ := memcpy_length _ _ _ _ _ _ hm
      rw [← h.1, ← h.2]
      refine ⟨h2, ?_⟩
      unfold addSizeT
      exact le_trans (Nat.mod_le _ _) h1
  · split at h
    · cases hm : memcpy buf cr buffer 0 (subSizeT count cr) with
      | none => simp [hm] at h
      | some m =>
        simp only [hm, Option.map_some', Option.some.injEq, Prod.mk.injEq] at h
        obtain ⟨h1, h2⟩ := memcpy_length _ _ _ _ _ _ hm
        rw [← h.1, ← h.2]
        refine ⟨h2, ?_⟩
        unfold addSizeT
        exact le_trans (Nat.mod_le _ _) h1
    · cases hm : memcpy buf cr buffer 0 BLOCK_SIZE with
      | none => simp [hm] at h
      | some m =>
        simp only [hm, Option.map_some', Option.some.injEq, Prod.mk.injEq] at h
        obtain ⟨h1, h2⟩ := memcpy_length _ _ _ _ _ _ hm
        rw [← h.1, ← h.2]
        refine ⟨h2, ?_⟩
        unfold addSizeT
        exact le_trans (Nat.mod_le _ _) h1

theorem read_loop_bound (sb : superblock) (fat : List Nat) (d : Disk) (count co : Nat)
    (access : Int) :
    ∀ (n : Nat) (i : Int) (buffer buf : List Nat) (cr curr : Nat) (b' : List Nat) (cr' : Nat),
      cr ≤ buf.length →
      read_loop sb fat d count co access n i buffer buf cr curr = some (b', cr') →
      b'.length = buf.length ∧ cr' ≤ buf.length := by
  intro n
  induction n with
  | zero =>
    intro i buffer buf cr curr b' cr' hcr h
    simp only [read_loop, Option.some.injEq, Prod.mk.injEq] at h
    rw [← h.1, ← h.2]
    exact ⟨rfl, hcr⟩
  | succ n ih =>
    intro i buffer buf cr curr b' cr' hcr h
    simp only [read_loop] at h
    cases hc : read_copy ((block_read d ((sb.data_block_start_index : Int) + (curr : Int))).getD
        buffer) count co access i buf cr with
    | none => simp [hc] at h
    | some p =>
      obtain ⟨buf2, cr2⟩ := p
      obtain ⟨hl, hb⟩ := read_copy_bound _ _ _ _ _ _ _ _ _ hc
      simp only [hc] at h
      cases hf : fat[curr]? with
      | none => simp [hf] at h
      | some next =>
        simp only [hf] at h
        split at h
        · simp only [Option.some.injEq, Prod.mk.injEq] at h
          rw [← h.1, ← h.2]
          exact ⟨hl, hb⟩
        · have := ih _ _ _ _ _ _ _ (by rw [hl]; exact hb) h
          rw [hl] at this
          exact this

theorem fs_read_cases (buffer : List Nat) (st : FS) (fd : Int) (buf : Option (List Nat))
    (count : Nat) (r : Int) (buf' : Option (List Nat)) (st' : FS)
    (h : fs_read buffer st fd buf count = some (r, buf', st')) :
    ((r = -1 ∨ r = 0) ∧ st' = st) ∨
    ∃ (s : file_descriptor) (b : List Nat) (cr : Nat),
      0 ≤ fd ∧ st.Open_FD_Table[fd.toNat]? = some s ∧ buf = some b ∧
      cr ≤ b.length ∧ r = toInt32 cr ∧
      st' = { st with Open_FD_Table := (st.Open_FD_Table.set fd.toNat
        { s with offset := addSizeT s.offset cr }) } := by
  unfold fs_read at h
  cases hfat : st.FAT with
  | none =>
    simp only [hfat, Option.some.injEq, Prod.mk.injEq] at h
    exact Or.inl ⟨Or.inl h.1.symm, h.2.2.symm⟩
  | some fat =>
    simp only [hfat] at h
    split at h
    · simp only [Option.some.injEq, Prod.mk.injEq] at h
      exact Or.inl ⟨Or.inl h.1.symm, h.2.2.symm⟩
    · rename_i hfd
      cases hs : st.Open_FD_Table[fd.toNat]? with
      | none => simp [hs] at h
      | some s =>
        simp only [hs] at h
        cases buf with
        | none =>
          simp only [Option.some.injEq, Prod.mk.injEq] at h
          exact Or.inl ⟨Or.inl h.1.symm, h.2.2.symm⟩
        | some b =>
          simp only at h
          split at h
          · simp only [Option.some.injEq, Prod.mk.injEq] at h
            exact Or.inl ⟨Or.inl h.1.symm, h.2.2.symm⟩
          · split at h
            · simp only [Option.some.injEq, Prod.mk.injEq] at h
              exact Or.inl ⟨Or.inr h.1.symm, h.2.2.symm⟩
            · cases hd : data_block_offset st fd with
              | none => simp [hd] at h
              | some curr =>
                cases hst : fs_stat st fd with
                | none => simp [hd, hst] at h
                | some size =>
                  simp only [hd, hst] at h
                  split at h
                  · cases h
                  · rename_i b1 cr hloop
                    simp only [Option.some.injEq, Prod.mk.injEq] at h
                    obtain ⟨_, hb⟩ := read_loop_bound _ _ _ _ _ _ _ _ _ _ _ _ _ _
                      (Nat.zero_le _) hloop
                    refine Or.inr ⟨s, b, cr, by omega, rfl, rfl, hb, h.1.symm, ?_⟩
                    rw [← h.2.2]

/-- The frame of the reads that have a result: whenever `fs_read` has a result, for
every state, descriptor, buffer and count, the state it leaves has the same
superblock, FAT, root directory and disk, and the same descriptor slots other
than `fd`. When the caller's buffer is shorter than 2^31 bytes (so that the byte
count fits the `int` result) and the offset is below 2^63, a read that returns -1
or 0 leaves the whole state unchanged, and a read that returns `r ≥ 0` changes
only the offset of `fd`, which grows by exactly `r`. Reads whose copy leaves the
buffers have no result and are not covered. -/
theorem read_with_result_keeps_frame (buffer : List Nat) (st : FS) (fd : Int)
    (buf : Option (List Nat))
    (count : Nat) (r : Int) (buf' : Option (List Nat)) (st' : FS)
    (h : fs_read buffer st fd buf count = some (r, buf', st')) :
    st'.Superblock = st.Superblock ∧ st'.FAT = st.FAT ∧
    st'.Root_Directory = st.Root_Directory ∧ st'.disk = st.disk ∧
    (∀ k : Nat, (k : Int) ≠ fd → st'.Open_FD_Table[k]? = st.Open_FD_Table[k]?) ∧
    ((∀ b, buf = some b → b.length < 2 ^ 31) →
      (∀ s, st.Open_FD_Table[fd.toNat]? = some s → s.offset < 2 ^ 63) →
      (r ≤ 0 → st' = st) ∧
      (0 ≤ r → ∀ s, st.Open_FD_Table[fd.toNat]? = some s →
        st'.Open_FD_Table[fd.toNat]? = some { s with offset := s.offset + r.toNat })) := by
  rcases fs_read_cases buffer st fd buf count r buf' st' h with ⟨hr, hst⟩ |
    ⟨s, b, cr, hfd, hs, hb, hcr, hr, hst⟩
  · subst hst
    refine ⟨rfl, rfl, rfl, rfl, fun _ _ => rfl, fun _ _ => ⟨fun _ => rfl, ?_⟩⟩
    intro h0 s hs
    have : r = 0 := by rcases hr with h1 | h1 <;> omega
    subst this
    simpa using hs
  · have hlt : fd.toNat < st.Open_FD_Table.length := by
      by_contra hn
      rw [List.getElem?_eq_none (by omega)] at hs
      cases hs
    subst hst
    refine ⟨rfl, rfl, rfl, rfl, ?_, ?_⟩
    · intro k hk
      have : fd.toNat ≠ k := by omega
      simp only [List.getElem?_set_ne this]
    · intro hcap hoff
      have hcr31 : cr < 2 ^ 31 := lt_of_le_of_lt hcr (hcap b hb)
      have hr' : r = (cr : Int) := by rw [hr, toInt32_small cr hcr31]
      have hso := hoff s hs
      have hadd : addSizeT s.offset cr = s.offset + cr := by
        unfold addSizeT
        exact Nat.mod_eq_of_lt (by omega)
      constructor
      · intro hle
        have hz : cr = 0 := by omega
        have hs0 : ({ s with offset := addSizeT s.offset cr } : file_descriptor) = s := by
          rw [hadd, hz]; rfl
        rw [hs0, set_same _ _ _ hs]
      · intro _ s2 hs2
        rw [hs] at hs2
        simp only [Option.some.injEq] at hs2
        subst hs2
        simp only [List.getElem?_set_self hlt, hadd, hr', Int.toNat_ofNat]

/-- The frame at a concrete state: descriptor 0 stands at offset 4100 of the 12288
bytes of `"a"`; `read(0, buf, 10)` returns 10, and the state it leaves is the same
state with descriptor 0 at offset 4110. -/
theorem read_with_result_keeps_frame_witness :
    fs_read zeroBlock (state_three_blocks 4100) 0 (some (List.replicate 10 7)) 10
      = some (10, some (List.replicate 10 0), state_three_blocks 4110) ∧
    (state_three_blocks 4110).disk = (state_three_blocks 4100).disk ∧
    (state_three_blocks 4110).Open_FD_Table[0]?
      = some { inUse := true, file_rdir_index := 0, offset := 4100 + 10 } := by
  have h : fs_read zeroBlock (state_three_blocks 4100) 0 (some (List.replicate 10 7)) 10
      = some (10, some (List.replicate 10 0), state_three_blocks 4110) := by decide!
  have hframe := read_with_result_keeps_frame zeroBlock (state_three_blocks 4100) 0
    (some (List.replicate 10 7)) 10 10 (some (List.replicate 10 0)) (state_three_blocks 4110) h
  refine ⟨h, hframe.2.2.2.1, ?_⟩
  have hgrow := (hframe.2.2.2.2.2
    (fun b hb => by cases hb; decide)
    (fun s hs => by cases hs; decide)).2 (by decide)
    { inUse := true, file_rdir_index := 0, offset := 4100 } rfl
  exact hgrow

/-! ## What mount checks -/

/-- C18, as amended: the signature `fs_mount` requires is `0x5346303531534345`
(decimal 6000536558536704837), which is the little-endian reading of the eight
ASCII bytes `"ECS150FS"`; once the disk is open and block 0 is read, `fs_mount`
returns -1 for every superblock whose signature field differs from it. -/
theorem C18_signature_constant (heap : List Nat) (st : FS) (n : List Nat) (d : Disk)
    (b : List Nat)
    (hopen : block_disk_open st.disk n = some d)
    (hread : block_read d 0 = some b)
    (hsig : (parseSuperblock b).signature ≠ SIGNATURE) :
    SIGNATURE = 0x5346303531534345 ∧
    leValue [0x45, 0x43, 0x53, 0x31, 0x35, 0x30, 0x46, 0x53] = SIGNATURE ∧
    fs_mount heap st (some n) =
      some (-1, { st with disk := d, Superblock := parseSuperblock b }) := by
  refine ⟨by decide, by decide, ?_⟩
  simp only [fs_mount, hopen, hread, ne_eq, hsig, not_false_eq_true, if_true]

/-- C18 at a concrete disk: `image4_spec_signature` carries the value
`0x5346303532303441` in its signature field, and `fs_mount` returns -1 for it. -/
theorem C18_signature_constant_witness :
    (parseSuperblock (superBlockOf 0x5346303532303441 7 2 3 4 1)).signature
      = 0x5346303532303441 ∧
    (fs_mount [] (initFS image4_spec_signature) (some diskName)).map (fun p => p.1)
      = some (-1) := by
  refine ⟨by decide!, ?_⟩
  rw [(C18_signature_constant [] (initFS image4_spec_signature) diskName
    { image4_spec_signature with opened := true } (superBlockOf 0x5346303532303441 7 2 3 4 1)
    (by decide!) (by decide!) (by decide!)).2.2]
  rfl

/-- C18 as stated fails: the value mount requires is not `0x5346303532303441`, that
value is not the little-endian reading of `"ECS150FS"`, and `image4`, whose
signature field holds the bytes `"ECS150FS"` and so differs from
`0x5346303532303441`, is mounted with return value 0. -/
theorem C18_spec_value_is_not_the_signature :
    SIGNATURE ≠ 0x5346303532303441 ∧
    leValue [0x45, 0x43, 0x53, 0x31, 0x35, 0x30, 0x46, 0x53] ≠ 0x5346303532303441 ∧
    image4.blocks[0]?.map (fun b => b.take 8)
      = some [0x45, 0x43, 0x53, 0x31, 0x35, 0x30, 0x46, 0x53] ∧
    (fs_mount [] (initFS image4) (some diskName)).map
      (fun p => (p.1, decide (p.2.Superblock.signature = 0x5346303532303441)))
      = some (0, false) := by
  decide!

/-! ## Writing and reading at block boundaries -/

/-- C17, evaluated: on the filled disk `image2` the file `"c"` has size 4096,
descriptor 0 is at offset 4096 and no FAT entry is 0; `data_block_offset` then
yields `0xFFFF`, the end-of-chain mark, as the current block, and
`write(0, Z, 1)` indexes `FAT[0xFFFF]` outside the FAT, so the call has no
defined result instead of returning 0. -/
theorem C17_append_at_block_boundary_has_no_result :
    scenario_full2.map (fun s => (fs_stat s 0, offset_of s 0, s.FAT))
      = some (some 4096, some 4096, some [FAT_EOC, FAT_EOC]) ∧
    scenario_full2.map (fun s => data_block_offset s 0) = some (some 0xFFFF) ∧
    scenario_full2.map (fun s => (fs_write zeroBlock s 0 (some [90]) 1).isSome)
      = some false := by
  decide!

/-- C19, evaluated: with descriptor 0 at offset 8192 of the 12288 bytes of `"a"`,
the head-block byte count the code computes for a request of 10 bytes is 0, not
`min(10, 4096 - 0) = 10`: `read(0, buf, 10)` returns 0 and leaves `buf`
untouched, and `write(0, buf, 10)` returns 0 and leaves the offset at 8192. At
offset 8193 the computed count is negative and neither call has a defined
result. At offset 4100 the read does return 10. -/
theorem C19_head_offset_beyond_two_blocks :
    toSizeT (min (toInt32 10) (toInt32 (subSizeT BLOCK_SIZE (subSizeT 8192 BLOCK_SIZE)))) = 0 ∧
    (fs_read zeroBlock (state_three_blocks 8192) 0 (some (List.replicate 10 7)) 10).map
      (fun r => (r.1, r.2.1)) = some (0, some (List.replicate 10 7)) ∧
    (fs_write zeroBlock (state_three_blocks 8192) 0 (some (List.replicate 10 7)) 10).map
      (fun r => (r.1, offset_of r.2 0)) = some (0, some 8192) ∧
    (fs_read zeroBlock (state_three_blocks 8193) 0 (some (List.replicate 10 7)) 10).isSome
      = false ∧
    (fs_write zeroBlock (state_three_blocks 8193) 0 (some (List.replicate 10 7)) 10).isSome
      = false ∧
    (fs_read zeroBlock (state_three_blocks 4100) 0 (some (List.replicate 10 7)) 10).map
      (fun r => r.1) = some 10 := by
  decide!

/-- C15, evaluated: on the mounted `image4`, after `create("a")`, `open("a")`, a
write of 12288 bytes and `lseek(0, 8193)`, the file has 12288 bytes and
descriptor 0 stands at offset 8193. For `read(0, buf, 10)` the code reduces the
offset once by 4096, to 4097, and computes the head-block byte count
`min(10, 4096 - 4097) = -1`, which it passes to `memcpy` as the size `2^64 - 1`:
the copy leaves both buffers and the call has no defined result. The code then
adds that count to `count_read` and `count_read` to the offset, which makes the
return value -1 and the offset 8192: a failing read that moves the offset. The
same call has no defined result after `lseek(0, 9000)` and `lseek(0, 12286)`. -/
theorem C15_read_behind_second_block_has_no_result :
    (scenario_seek 8193).map (fun s => (fs_stat s 0, offset_of s 0))
      = some (some 12288, some 8193) ∧
    min (toInt32 10) (toInt32 (subSizeT BLOCK_SIZE (subSizeT 8193 BLOCK_SIZE))) = -1 ∧
    toSizeT (-1) = 2 ^ 64 - 1 ∧
    (scenario_seek 8193).map
      (fun s => (fs_read zeroBlock s 0 (some (List.replicate 10 7)) 10).isSome) = some false ∧
    toInt32 (addSizeT 0 (toSizeT (-1))) = -1 ∧
    addSizeT 8193 (addSizeT 0 (toSizeT (-1))) = 8192 ∧
    (scenario_seek 9000).map
      (fun s => (fs_read zeroBlock s 0 (some (List.replicate 10 7)) 10).isSome) = some false ∧
    (scenario_seek 12286).map
      (fun s => (fs_read zeroBlock s 0 (some (List.replicate 10 7)) 10).isSome) = some false := by
  decide!

/-! ## The lookup finds the lowest slot that holds the name -/

theorem named_slot_is_lowest (dir : List root_directory) (name : List Nat) (i : Nat)
    (e : root_directory) (hu : names_unique dir) (hi : dir[i]? = some e)
    (hne : ¬ is_empty_slot e) (hname : cstr e.filename = cstr name) :
    lowest_slot_named dir name i e := by
  refine ⟨hi, hne, hname, ?_⟩
  intro x hx hxn
  have hlt : i < dir.length := by
    by_contra h
    rw [List.getElem?_eq_none (by omega)] at hi
    cases hi
  have hie : dir[i] = e := by
    rw [List.getElem?_eq_getElem hlt] at hi
    exact Option.some.inj hi
  have hsplit : dir = dir.take i ++ dir[i] :: dir.drop (i + 1) := by
    rw [← List.drop_eq_getElem_cons hlt, List.take_append_drop]
  unfold names_unique at hu
  rw [hsplit, List.pairwise_append] at hu
  have hxe := hu.2.2 x hx dir[i] (List.mem_cons_self _ _)
  rw [hie] at hxe
  apply hxe
  refine ⟨?_, hne, hxn.trans hname.symm⟩
  rw [is_empty_slot_iff, hxn, ← hname, ← is_empty_slot_iff]
  exact hne

/-! ## Closed descriptor slots in mounted states -/

theorem expect_some (r : Int) (x : Option (Int × FS)) (s : FS) (h : expect r x = some s) :
    x = some (r, s) := by
  unfold expect at h
  cases x with
  | none => simp at h
  | some p =>
    obtain ⟨r', s'⟩ := p
    simp only [Option.some_bind] at h
    split at h
    · rename_i hr
      simp only [Option.some.injEq] at h
      rw [hr, h]
    · cases h

theorem allMounted_bind (x : Option FS) (f : FS → Option FS) (hx : AllMounted x)
    (hf : ∀ s s', Mounted s → f s = some s' → Mounted s') : AllMounted (x.bind f) := by
  intro s' hs'
  cases x with
  | none => simp at hs'
  | some s =>
    simp only [Option.some_bind] at hs'
    exact hf s s' (hx s rfl) hs'

theorem allMounted_lseek (x : Option FS) (r : Int) (fd : Int) (offset : Nat) (hx : AllMounted x) :
    AllMounted (x.bind (fun s => expect r (fs_lseek s fd offset))) := by
  apply allMounted_bind x _ hx
  intro s s' hm hs
  exact Mounted.lseek s fd offset r s' hm (expect_some _ _ _ hs)

end LibFS
